import Mathlib

/-!
Shallow embedding of `src/fx-data-generate.py` (FX backtest data generator).

Modelling conventions:
* Python floats are modelled as exact rationals (`ℚ`); machine rounding is not
  modelled, so every arithmetic identity below is an identity of the ideal
  real-number algorithm the source implements.
* `datetime` values are modelled by their epoch-second value as a rational;
  a date parsed from `YYYY.MM.DD` is a whole number of days, so it is
  `day * 86400` seconds, and `datetime.timedelta(days=1)` is `86400`.
* `deltaTime = datetime.timedelta(seconds=60 / density)` is modelled as the
  exact rational `60 / density` (microsecond rounding of `timedelta` is not
  modelled).
* Python `int(...)` applied to a float truncates toward zero: `pyTrunc`.
* Python `%` between floats returns `a - m * ⌊a / m⌋` for `m ≠ 0`: `pyMod`.
* Every division or float `%` that CPython would fault on with
  `ZeroDivisionError`, and the `ticks[-1]` indexing that can raise
  `IndexError`, are modelled by returning `Option.none`; generators therefore
  return `Option (List Tick)`.  In particular the volume synthesizer has two
  fault paths that validated CLI inputs can reach — a zero modulus at spread
  `= 1000` points and a zero divisor `d` at pre-epoch timestamps in
  `(-120, -60]` — so `volumesFromTimestamp` returns an `Option`, and each
  generator returns `none` whenever any of the synthesizer calls its run
  performs would fault (`volumesOk`).  The volume results never feed back
  into the running state (only the timestamp and prices do), so the set of
  synthesizer calls a run performs, and their timestamps, are independent of
  the volume values; this lets the crash condition be checked as a guard over
  the call timestamps `startDate + j * deltaTime`, `j = 1..n`, while the loop
  bodies read the volume pair through the defaulted accessor `volumesVal`
  whose default is never contained in any `some` result.
* `math.sin`, `math.pi`, `math.exp` and `random.random()` are transcendental
  or non-deterministic; they enter the embedding as explicit parameters
  (`sinF`, `piV`, `expF`, `noise`).  No claim below depends on their values.
-/

/-- Python `int(x)` on a float: truncation toward zero. -/
def pyTrunc (q : ℚ) : ℤ := if 0 ≤ q then ⌊q⌋ else -⌊-q⌋

/-- Python `a % m` on floats (result has the sign of `m`; we only ever use
positive `m`, where the result is `a - m * ⌊a / m⌋`). -/
def pyMod (a m : ℚ) : ℚ := a - m * ⌊a / m⌋

/-- Meaning of Python `int(str(n)[-3:])` for an integer `n`: for a nonnegative
number this keeps the last three decimal digits; for a negative number the
string starts with a minus sign, so if the absolute value has at most two
digits the sign survives the slice, otherwise the slice is pure digits. -/
def lastThreeDigits (n : ℤ) : ℤ :=
  if 0 ≤ n then n % 1000
  else if 100 ≤ -n then (-n) % 1000
  else n

/-- `volumesFromTimestamp` (source lines 26-32).  `ts` is the epoch-second
value of the timestamp.  Python numerics are mirrored exactly: the minute
index is truncated toward zero, its last three decimal digits are taken via
string slicing, and the bid volume is the truncated float remainder.
CPython raises `ZeroDivisionError` in `(longTimestamp / d) % (1e3 - spread)`
when `d = 0` (timestamps in `(-120, -60]`, where `int(ts / 60) = -1` and the
slice of `"-1"` is `-1`) or when the modulus `1e3 - spread * 1e5` is zero
(spread of exactly 1000 points); both fault paths are reachable from inputs
that pass CLI validation and are modelled by `none`. -/
def volumesFromTimestamp (ts spread : ℚ) : Option (ℚ × ℚ) :=
  let s := spread * 100000
  let d : ℤ := lastThreeDigits (pyTrunc (ts / 60)) + 1
  if d = 0 ∨ (1000 : ℚ) - s = 0 then none
  else
    let bidVolume : ℤ := pyTrunc (pyMod (ts / (d : ℚ)) (1000 - s))
    some ((bidVolume : ℚ), (bidVolume : ℚ) + s)

/-- Volume pair carried by the loop state.  The `(0, 0)` default stands for
the unreachable continuation of a faulted synthesizer call: every generator
returns `none` (see `volumesOk`) whenever any call of its run faults, so a
defaulted pair is never contained in any `some` result a generator returns. -/
def volumesVal (ts spread : ℚ) : ℚ × ℚ :=
  (volumesFromTimestamp ts spread).getD (0, 0)

/-- Success of every volume-synthesizer call of a run of `n` loop
iterations started at `startDate`.  Iteration `j` (0-based) first advances
the timestamp and then calls the synthesizer at
`startDate + (j + 1) * deltaTime`; the volume results never influence the
following state, so a run of `n` iterations completes exactly when all `n`
calls do, and CPython crashes (emitting nothing) exactly when one faults. -/
abbrev volumesOk (startDate dtime spread : ℚ) (n : ℕ) : Prop :=
  ∀ j, j < n →
    (volumesFromTimestamp (startDate + ((j : ℚ) + 1) * dtime) spread).isSome = true

/-- One generated tick (a row of the CSV output); also used as the mutable
loop state `(timestamp, bidPrice, askPrice, bidVolume, askVolume)` of the
generator loops. -/
structure Tick where
  timestamp : ℚ
  bidPrice : ℚ
  askPrice : ℚ
  bidVolume : ℚ
  askVolume : ℚ
  deriving Repr, DecidableEq

/-- Initial loop state shared by every model (source lines 36-40 and
analogues): price starts at `startPrice`, ask at `startPrice + spread`,
volumes at `(1, 1 + spread)`. -/
def startState (startDate startPrice spread : ℚ) : Tick :=
  { timestamp := startDate
    bidPrice := startPrice
    askPrice := startPrice + spread
    bidVolume := 1
    askVolume := 1 + spread }

/-- Generic `for i in range(i₀, i₀ + n)` loop: emits the current state as a
tick, then updates the state with the body `step i`, and finally returns the
emitted ticks together with the state after the loop. -/
def forLoop (step : ℕ → Tick → Tick) : ℕ → ℕ → Tick → List Tick × Tick
  | _, 0, st => ([], st)
  | i, n + 1, st =>
    let rest := forLoop step (i + 1) n (step i st)
    (st :: rest.1, rest.2)

/-- State after `k` body executions of `forLoop step` started at index `i`. -/
def stepN (step : ℕ → Tick → Tick) : ℕ → ℕ → Tick → Tick
  | _, 0, st => st
  | i, k + 1, st => stepN step (i + 1) k (step i st)

/-- Loop body of `linearModel` (source lines 57-60): the timestamp advances by
`deltaTime`, bid and ask both advance by `deltaPrice`, volumes come from the
new timestamp. -/
def linStep (dtime deltaPrice spread : ℚ) (st : Tick) : Tick :=
  { timestamp := st.timestamp + dtime
    bidPrice := st.bidPrice + deltaPrice
    askPrice := st.askPrice + deltaPrice
    bidVolume := (volumesVal (st.timestamp + dtime) spread).1
    askVolume := (volumesVal (st.timestamp + dtime) spread).2 }

/-- The `while timestamp < endDate + 1 day` loop of `linearModel` (source
lines 47-60), with explicit fuel.  Exhausting the fuel while the loop
condition still holds models divergence (`none`); the caller passes exactly
the number of iterations the loop performs when `deltaTime > 0`. -/
def linearLoop (bound dtime deltaPrice spread : ℚ) : ℕ → Tick → Option (List Tick)
  | 0, st => if st.timestamp < bound then none else some []
  | fuel + 1, st =>
    if st.timestamp < bound then
      (linearLoop bound dtime deltaPrice spread fuel
          (linStep dtime deltaPrice spread st)).map (st :: ·)
    else some []

/-- `linearModel` (source lines 35-61).  `deltaPrice` is
`deltaTime / (endDate + 1 day - startDate - deltaTime) * (endPrice - startPrice)`;
a zero denominator raises `ZeroDivisionError` (`none`).  The `while` loop
performs, for `deltaTime > 0`, exactly `⌈(bound - startDate) / deltaTime⌉⁺`
iterations, each ending in one synthesizer call at
`startDate + j * deltaTime` (`j = 1..n`); since the volume values never feed
back into the trajectory, the run crashes exactly when one of those calls
faults, checked up front by `volumesOk`. -/
def linearModel (startDate endDate startPrice endPrice dtime spread : ℚ) :
    Option (List Tick) :=
  let bound := endDate + 86400
  if bound - startDate - dtime = 0 then none
  else
    let deltaPrice := dtime / (bound - startDate - dtime) * (endPrice - startPrice)
    if volumesOk startDate dtime spread (Int.toNat ⌈(bound - startDate) / dtime⌉) then
      linearLoop bound dtime deltaPrice spread
        (Int.toNat ⌈(bound - startDate) / dtime⌉)
        (startState startDate startPrice spread)
    else none

/-- Body of the zigzag oscillation loop (source lines 89-96).  The source
increments the loop variable first (`i += 1`), so the parity test uses
`i + 1`; `forward` is the literal `500`. -/
def zigzagStep (dtime spread lift : ℚ) (backward : ℤ) (i : ℕ) (st : Tick) : Tick :=
  let j : ℤ := (i : ℤ) + 1
  let t' := st.timestamp + dtime
  let bid' :=
    if j % (500 + backward) < 500 then
      st.bidPrice + ((500 + 2 * backward : ℤ) : ℚ) / 500 * lift
    else
      st.bidPrice - lift
  { timestamp := t'
    bidPrice := bid'
    askPrice := bid' + spread
    bidVolume := (volumesVal t' spread).1
    askVolume := (volumesVal t' spread).2 }

/-- Body of the zigzag tail loop (source lines 110-114): a plain linear move
by `lift` per tick. -/
def zigzagTailStep (dtime spread lift : ℚ) (_i : ℕ) (st : Tick) : Tick :=
  let t' := st.timestamp + dtime
  let bid' := st.bidPrice + lift
  { timestamp := t'
    bidPrice := bid'
    askPrice := bid' + spread
    bidVolume := (volumesVal t' spread).1
    askVolume := (volumesVal t' spread).2 }

/-- `zigzagModel` (source lines 64-115).  Two divisions can raise
`ZeroDivisionError` in CPython and are modelled by `none`:
`lift = deltaPrice / count` when `count = 0`, and the tail step
`lift = (endPrice - bidPrice) / (backward - 1)` when `backward = 1`.
The body loop is `range(0, count - backward)` (empty when
`backward ≥ count`), the tail loop is `range(count - backward, count)`
(length `backward` when `backward ≥ 0`); the two loops together perform one
synthesizer call per iteration, at `startDate + j * deltaTime` for
`j = 1..n1+n2`, and the run crashes exactly when one of them faults
(`volumesOk`). -/
def zigzagModel (startDate endDate startPrice endPrice dtime spread volatility : ℚ) :
    Option (List Tick) :=
  let bound := endDate + 86400
  let deltaPrice := endPrice - startPrice
  let count : ℤ := ⌈(bound - startDate) / dtime⌉
  if count = 0 then none
  else
    let lift := deltaPrice / (count : ℚ)
    let backward : ℤ := pyTrunc (volatility * 50)
    let body := forLoop (zigzagStep dtime spread lift backward) 0
      (count - backward).toNat (startState startDate startPrice spread)
    if backward = 1 then none
    else if volumesOk startDate dtime spread
        ((count - backward).toNat + backward.toNat) then
      let lift2 := (endPrice - body.2.bidPrice) / ((backward : ℚ) - 1)
      let tail := forLoop (zigzagTailStep dtime spread lift2)
        (count - backward).toNat backward.toNat body.2
      some (body.1 ++ tail.1)
    else none

/-- Body of the wave loop (source lines 138-150); `i += 1` again makes the
price formula use `i + 1`.  `sinF` stands for `math.sin` and `piV` for
`math.pi`. -/
def waveStep (startPrice deltaPrice volatility dtime spread : ℚ)
    (sinF : ℚ → ℚ) (piV : ℚ) (count : ℤ) (i : ℕ) (st : Tick) : Tick :=
  let j : ℚ := (i : ℚ) + 1
  let t' := st.timestamp + dtime
  let bid' :=
    if 0 < |deltaPrice| then
      |startPrice + j / ((count : ℚ) - 1) * deltaPrice
        + volatility * sinF (j / ((count : ℚ) - 1) * 3 * piV)|
    else
      |startPrice + volatility * sinF (j / ((count : ℚ) - 1) * 3 * piV)|
  { timestamp := t'
    bidPrice := bid'
    askPrice := bid' + spread
    bidVolume := (volumesVal t' spread).1
    askVolume := (volumesVal t' spread).2 }

/-- `waveModel` (source lines 118-151).  The body divides by `count - 1`,
which CPython reaches exactly when `count ≥ 1`; so `count = 1` raises
`ZeroDivisionError`, modelled by `none`.  (The local `d = count / 2` of the
source is unused and omitted.)  Each of the `count` iterations ends in one
synthesizer call at `startDate + j * deltaTime` (`j = 1..count`); the run
crashes exactly when one of them faults (`volumesOk`). -/
def waveModel (startDate endDate startPrice endPrice dtime spread volatility : ℚ)
    (sinF : ℚ → ℚ) (piV : ℚ) : Option (List Tick) :=
  let bound := endDate + 86400
  let deltaPrice := endPrice - startPrice
  let count : ℤ := ⌈(bound - startDate) / dtime⌉
  if count = 1 then none
  else if volumesOk startDate dtime spread count.toNat then
    some (forLoop (waveStep startPrice deltaPrice volatility dtime spread sinF piV count)
      0 count.toNat (startState startDate startPrice spread)).1
  else none

/-- Body of the curve loop (source lines 174-182); `expF` stands for
`math.exp` and `d` is `count / volatility`. -/
def curveStep (startPrice deltaPrice dtime spread : ℚ)
    (expF : ℚ → ℚ) (d : ℚ) (count : ℤ) (i : ℕ) (st : Tick) : Tick :=
  let j : ℚ := (i : ℚ) + 1
  let t' := st.timestamp + dtime
  let bid' := startPrice
    + (1 - (expF (j / d) - expF (((count : ℚ) - 1) / d))
        / (1 - expF (((count : ℚ) - 1) / d))) * deltaPrice
  { timestamp := t'
    bidPrice := bid'
    askPrice := bid' + spread
    bidVolume := (volumesVal t' spread).1
    askVolume := (volumesVal t' spread).2 }

/-- `curveModel` (source lines 154-183).  `d = count / volatility` raises
`ZeroDivisionError` when `volatility = 0`; the body divides by
`1 - exp((count - 1) / d)`, reached exactly when `count ≥ 1`.  Both failure
modes are modelled by `none`.  Each of the `count` iterations ends in one
synthesizer call at `startDate + j * deltaTime` (`j = 1..count`); the run
crashes exactly when one of them faults (`volumesOk`). -/
def curveModel (startDate endDate startPrice endPrice dtime spread volatility : ℚ)
    (expF : ℚ → ℚ) : Option (List Tick) :=
  let bound := endDate + 86400
  let deltaPrice := endPrice - startPrice
  let count : ℤ := ⌈(bound - startDate) / dtime⌉
  if volatility = 0 then none
  else
    let d := (count : ℚ) / volatility
    if 1 ≤ count ∧ 1 - expF (((count : ℚ) - 1) / d) = 0 then none
    else if volumesOk startDate dtime spread count.toNat then
      some (forLoop (curveStep startPrice deltaPrice dtime spread expF d count)
        0 count.toNat (startState startDate startPrice spread)).1
    else none

/-- Body of the random-walk loop (source lines 211-214): the bid moves by the
linear drift plus noise `deltaPrice * (random() - 0.5) * volatility`, where
`noise i` stands for the `i`-th value drawn from `random.random()`. -/
def randomStep (dtime deltaPrice volatility spread : ℚ) (noise : ℕ → ℚ)
    (i : ℕ) (st : Tick) : Tick :=
  let t' := st.timestamp + dtime
  let bid' := st.bidPrice + (deltaPrice + deltaPrice * (noise i - 1 / 2) * volatility)
  { timestamp := t'
    bidPrice := bid'
    askPrice := bid' + spread
    bidVolume := (volumesVal t' spread).1
    askVolume := (volumesVal t' spread).2 }

/-- `ticks[-1]["bidPrice"] = endPrice; ticks[-1]["askPrice"] = endPrice + spread`
(source lines 215-216): overwrite the prices of the last element. -/
def setLastPrices (endPrice spread : ℚ) : List Tick → List Tick
  | [] => []
  | [t] => [{ t with bidPrice := endPrice, askPrice := endPrice + spread }]
  | t :: rest => t :: setLastPrices endPrice spread rest

/-- `randomModel` (source lines 186-217).  The drift denominator
`endDate + 1 day - startDate - deltaTime` raises `ZeroDivisionError` when it
is zero, and `ticks[-1]` raises `IndexError` when no tick was generated; both
are modelled by `none`.  Each of the `count` iterations ends in one
synthesizer call at `startDate + j * deltaTime` (`j = 1..count`); the run
crashes exactly when one of them faults (`volumesOk`). -/
def randomModel (startDate endDate startPrice endPrice dtime spread volatility : ℚ)
    (noise : ℕ → ℚ) : Option (List Tick) :=
  let bound := endDate + 86400
  if bound - startDate - dtime = 0 then none
  else
    let deltaPrice := dtime / (bound - startDate - dtime) * (endPrice - startPrice)
    let count : ℤ := ⌈(bound - startDate) / dtime⌉
    if volumesOk startDate dtime spread count.toNat then
      let ticks := (forLoop (randomStep dtime deltaPrice volatility spread noise)
        0 count.toNat (startState startDate startPrice spread)).1
      if ticks = [] then none else some (setLastPrices endPrice spread ticks)
    else none

/-- The `--pattern` choice (source lines 281-289). -/
inductive Pattern where
  | linear
  | wave
  | curve
  | zigzag
  | random
  deriving Repr, DecidableEq

/-- Observable outcome of a run of `__main__` after date parsing:
`validationError msg` models `error(msg)` (source lines 20-23), which prints
an `[ERROR] msg` line on `sys.stderr` and calls `sys.exit(1)` before any row
is written; `crash` models an uncaught exception inside a generator
(`ZeroDivisionError` / `IndexError`), which also writes no row; `output rows`
models a successful run that serializes exactly `rows` to the output sink. -/
inductive RunResult where
  | validationError : String → RunResult
  | crash : RunResult
  | output : List Tick → RunResult
  deriving Repr

/-- The `__main__` driver after successful date parsing (source lines
315-392): validation checks in source order, then scaling of the spread by
`1e5`, `deltaTime = 60 / density` seconds, and dispatch on the pattern.
`startDate`, `endDate` are in whole days (the dates parse as midnights);
`digits`, `spreadPoints`, `density` are the integer CLI options. -/
def mainRun (startDate endDate : ℤ) (startPrice endPrice : ℚ)
    (digits spreadPoints density : ℤ) (pattern : Pattern) (volatility : ℚ)
    (sinF : ℚ → ℚ) (piV : ℚ) (expF : ℚ → ℚ) (noise : ℕ → ℚ) : RunResult :=
  if endDate < startDate then .validationError "Ending date precedes starting date!"
  else if digits ≤ 0 then .validationError "Digits must be larger than zero!"
  else if startPrice ≤ 0 ∨ endPrice ≤ 0 then .validationError "Price must be larger than zero!"
  else if spreadPoints < 0 then .validationError "Spread must be larger or equal to zero!"
  else if density ≤ 0 then .validationError "Density must be larger than zero!"
  else if volatility ≤ 0 then .validationError "Volatility must be larger than zero!"
  else
    let spread := (spreadPoints : ℚ) / 100000
    let dtime := (60 : ℚ) / (density : ℚ)
    let sd := (startDate : ℚ) * 86400
    let ed := (endDate : ℚ) * 86400
    let rows : Option (List Tick) :=
      match pattern with
      | .linear => linearModel sd ed startPrice endPrice dtime spread
      | .zigzag => zigzagModel sd ed startPrice endPrice dtime spread volatility
      | .wave => waveModel sd ed startPrice endPrice dtime spread volatility sinF piV
      | .curve => curveModel sd ed startPrice endPrice dtime spread volatility expF
      | .random => randomModel sd ed startPrice endPrice dtime spread volatility noise
    match rows with
    | Option.none => .crash
    | Option.some r => .output r

/-- Validation conditions of the CLI driver (source lines 322-338), together
with the implicit success of date parsing.  An input satisfying this reaches
a generator. -/
abbrev ValidInput (startDate endDate : ℤ) (startPrice endPrice : ℚ)
    (digits spreadPoints density : ℤ) (volatility : ℚ) : Prop :=
  startDate ≤ endDate ∧ 0 < digits ∧ 0 < startPrice ∧ 0 < endPrice ∧
    0 ≤ spreadPoints ∧ 0 < density ∧ 0 < volatility

/-- Rows produced by a run, if any. -/
def rowsOf : RunResult → Option (List Tick)
  | .output r => some r
  | _ => none

/-- The tick at index `k` of an optional tick list. -/
def tickAt (o : Option (List Tick)) (k : ℕ) : Option Tick :=
  o.bind fun l => l[k]?

/-- Bid and ask price of the last tick, when the list is there and nonempty. -/
def lastBidAsk (l : List Tick) : Option (ℚ × ℚ) :=
  l.getLast?.map fun t => (t.bidPrice, t.askPrice)

/-- Bid and ask volume of the first tick. -/
def headVolumes (l : List Tick) : Option (ℚ × ℚ) :=
  l.head?.map fun t => (t.bidVolume, t.askVolume)

/-- Price spread carried by a tick. -/
def spreadOf (t : Tick) : ℚ := t.askPrice - t.bidPrice

/-- Volume spread carried by a tick. -/
def volumeSpreadOf (t : Tick) : ℚ := t.askVolume - t.bidVolume

/-- Timestamp at index `k` of an optional tick list. -/
def timestampAt (o : Option (List Tick)) (k : ℕ) : Option ℚ :=
  (tickAt o k).map Tick.timestamp

/-- Modelled from the spec: tick count claimed for every model,
`ceil((endDate + 1 day - startDate) / deltaTime)` with
`deltaTime = 60 / density` seconds. -/
def claimedCount (startDate endDate density : ℤ) : ℤ :=
  ⌈(((endDate : ℚ) * 86400 + 86400) - (startDate : ℚ) * 86400) / ((60 : ℚ) / (density : ℚ))⌉

/-- Modelled from the spec (claim C6 wording): `d` is the last three decimal
digits of `⌊epochSeconds / 60⌋` plus one, the bid volume is
`⌊epochSeconds / d⌋ mod (1000 - spread * 1e5)`, and the result is
`(bidVolume, bidVolume + spread * 1e5)`. -/
def claimVolumesFromTimestamp (ts spread : ℚ) : ℚ × ℚ :=
  let s := spread * 100000
  let d : ℤ := ((⌊ts / 60⌋.natAbs % 1000 : ℕ) : ℤ) + 1
  let bidVolume : ℚ := pyMod ((⌊ts / (d : ℚ)⌋ : ℚ)) (1000 - s)
  (bidVolume, bidVolume + s)

/-- Zero function used to instantiate the abstract `sin` / `exp` parameters
in concrete evaluations. -/
def zeroFun : ℚ → ℚ := fun _ => 0

/-- Zero noise sequence used to instantiate the random source in concrete
evaluations. -/
def zeroNoise : ℕ → ℚ := fun _ => 0

/-! ### Generic lemmas about the loop combinators -/

theorem stepN_constStep (g : Tick → Tick) :
    ∀ (k i j : ℕ) (st : Tick), stepN (fun _ => g) i k st = stepN (fun _ => g) j k st := by
  intro k
  induction k with
  | zero => intro i j st; rfl
  | succ k ih => intro i j st; exact ih (i + 1) (j + 1) (g st)

theorem forLoop_fst (step : ℕ → Tick → Tick) :
    ∀ (n i : ℕ) (st : Tick),
      (forLoop step i n st).1 = List.ofFn fun k : Fin n => stepN step i k st := by
  intro n
  induction n with
  | zero => intro i st; rfl
  | succ n ih =>
    intro i st
    rw [List.ofFn_succ]
    simp only [forLoop, ih (i + 1) (step i st)]
    rfl

theorem forLoop_snd (step : ℕ → Tick → Tick) :
    ∀ (n i : ℕ) (st : Tick), (forLoop step i n st).2 = stepN step i n st := by
  intro n
  induction n with
  | zero => intro i st; rfl
  | succ n ih => intro i st; simpa [forLoop, stepN] using ih (i + 1) (step i st)

theorem stepN_succ_right (step : ℕ → Tick → Tick) :
    ∀ (k i : ℕ) (st : Tick), stepN step i (k + 1) st = step (i + k) (stepN step i k st) := by
  intro k
  induction k with
  | zero => intro i st; simp [stepN]
  | succ k ih =>
    intro i st
    show stepN step (i + 1) (k + 1) (step i st) = _
    rw [ih (i + 1) (step i st)]
    have : i + 1 + k = i + (k + 1) := by omega
    rw [this]
    rfl

theorem stepN_timestamp (step : ℕ → Tick → Tick) (dtime : ℚ)
    (h : ∀ j st, (step j st).timestamp = st.timestamp + dtime) :
    ∀ (k i : ℕ) (st : Tick), (stepN step i k st).timestamp = st.timestamp + k * dtime := by
  intro k
  induction k with
  | zero => intro i st; simp [stepN]
  | succ k ih =>
    intro i st
    show (stepN step (i + 1) k (step i st)).timestamp = _
    rw [ih (i + 1) (step i st), h i st]
    push_cast
    ring

theorem stepN_spread_set (step : ℕ → Tick → Tick) (spread : ℚ)
    (h : ∀ j st, (step j st).askPrice = (step j st).bidPrice + spread) :
    ∀ (k i : ℕ) (st : Tick), 1 ≤ k →
      (stepN step i k st).askPrice = (stepN step i k st).bidPrice + spread := by
  intro k i st hk
  obtain ⟨m, rfl⟩ : ∃ m, k = m + 1 := ⟨k - 1, by omega⟩
  rw [stepN_succ_right]
  exact h (i + m) (stepN step i m st)

theorem stepN_spread_preserve (step : ℕ → Tick → Tick)
    (h : ∀ j st, (step j st).askPrice - (step j st).bidPrice
      = st.askPrice - st.bidPrice) :
    ∀ (k i : ℕ) (st : Tick), (stepN step i k st).askPrice - (stepN step i k st).bidPrice
      = st.askPrice - st.bidPrice := by
  intro k
  induction k with
  | zero => intro i st; rfl
  | succ k ih =>
    intro i st
    have hs : stepN step i (k + 1) st = stepN step (i + 1) k (step i st) := rfl
    rw [hs, ih (i + 1) (step i st), h i st]

theorem stepN_volumes (step : ℕ → Tick → Tick) (dtime spread : ℚ)
    (hT : ∀ j st, (step j st).timestamp = st.timestamp + dtime)
    (hV : ∀ j st, (step j st).bidVolume
        = (volumesVal (st.timestamp + dtime) spread).1
      ∧ (step j st).askVolume
        = (volumesVal (st.timestamp + dtime) spread).2) :
    ∀ (k i : ℕ) (st : Tick), 1 ≤ k →
      (stepN step i k st).bidVolume
          = (volumesVal (st.timestamp + k * dtime) spread).1
        ∧ (stepN step i k st).askVolume
          = (volumesVal (st.timestamp + k * dtime) spread).2 := by
  intro k i st hk
  obtain ⟨m, rfl⟩ : ∃ m, k = m + 1 := ⟨k - 1, by omega⟩
  rw [stepN_succ_right]
  have ht : (stepN step i m st).timestamp = st.timestamp + m * dtime :=
    stepN_timestamp step dtime hT m i st
  have := hV (i + m) (stepN step i m st)
  rw [ht] at this
  have harg : st.timestamp + (m : ℚ) * dtime + dtime
      = st.timestamp + ((m + 1 : ℕ) : ℚ) * dtime := by push_cast; ring
  rw [harg] at this
  exact this

theorem volumesVal_sub (ts spread : ℚ)
    (h : (volumesFromTimestamp ts spread).isSome = true) :
    (volumesVal ts spread).2 - (volumesVal ts spread).1 = spread * 100000 := by
  by_cases hc : lastThreeDigits (pyTrunc (ts / 60)) + 1 = 0
      ∨ (1000 : ℚ) - spread * 100000 = 0
  · rw [show volumesFromTimestamp ts spread = none from by
      simp only [volumesFromTimestamp]; rw [if_pos hc]] at h
    simp at h
  · rw [volumesVal, show volumesFromTimestamp ts spread
        = some ((pyTrunc (pyMod
            (ts / ((lastThreeDigits (pyTrunc (ts / 60)) + 1 : ℤ) : ℚ))
            (1000 - spread * 100000)) : ℚ),
          (pyTrunc (pyMod
            (ts / ((lastThreeDigits (pyTrunc (ts / 60)) + 1 : ℤ) : ℚ))
            (1000 - spread * 100000)) : ℚ) + spread * 100000) from by
      simp only [volumesFromTimestamp]; rw [if_neg hc]]
    simp

theorem pyTrunc_of_nonneg {q : ℚ} (h : 0 ≤ q) : pyTrunc q = ⌊q⌋ := by
  simp [pyTrunc, h]

/-- The synthesizer succeeds at every nonnegative timestamp whenever the
spread is `spts / 1e5` points with `spts ≠ 1000`: the minute index is then
nonnegative, so `d ≥ 1`, and the modulus `1000 - spts` is nonzero. -/
theorem volumesFromTimestamp_isSome (ts : ℚ) (spts : ℤ) (hts : 0 ≤ ts)
    (hs : spts ≠ 1000) :
    (volumesFromTimestamp ts ((spts : ℚ) / 100000)).isSome = true := by
  have hq60 : 0 ≤ ts / 60 := by positivity
  have h1 : 0 ≤ pyTrunc (ts / 60) := by
    rw [pyTrunc_of_nonneg hq60]
    exact Int.floor_nonneg.mpr hq60
  have h2 : 0 ≤ lastThreeDigits (pyTrunc (ts / 60)) := by
    rw [lastThreeDigits, if_pos h1]
    exact Int.emod_nonneg _ (by norm_num)
  have hd : lastThreeDigits (pyTrunc (ts / 60)) + 1 ≠ 0 := by omega
  have hm : (1000 : ℚ) - (spts : ℚ) / 100000 * 100000 ≠ 0 := by
    rw [div_mul_cancel₀ _ (by norm_num : (100000 : ℚ) ≠ 0)]
    intro h
    apply hs
    have : ((spts : ℤ) : ℚ) = ((1000 : ℤ) : ℚ) := by push_cast; linarith
    exact_mod_cast this
  rw [show volumesFromTimestamp ts ((spts : ℚ) / 100000)
      = some ((pyTrunc (pyMod
          (ts / ((lastThreeDigits (pyTrunc (ts / 60)) + 1 : ℤ) : ℚ))
          (1000 - (spts : ℚ) / 100000 * 100000)) : ℚ),
        (pyTrunc (pyMod
          (ts / ((lastThreeDigits (pyTrunc (ts / 60)) + 1 : ℤ) : ℚ))
          (1000 - (spts : ℚ) / 100000 * 100000)) : ℚ)
          + (spts : ℚ) / 100000 * 100000) from by
    simp only [volumesFromTimestamp]
    rw [if_neg (by push_neg; exact ⟨hd, hm⟩)]]
  rfl

/-- At spread `= 1000` points the modulus `1e3 - spread * 1e5` is zero and
every synthesizer call faults, whatever the timestamp. -/
theorem volumesFromTimestamp_spread1000 (ts : ℚ) :
    volumesFromTimestamp ts (((1000 : ℤ) : ℚ) / 100000) = none := by
  simp only [volumesFromTimestamp]
  rw [if_pos (Or.inr (by norm_num))]

/-- At epoch seconds `-60`, `int(ts / 60) = -1`, the slice of `"-1"` is still
`-1`, so `d = 0` and the synthesizer faults, whatever the spread. -/
theorem volumesFromTimestamp_neg60 (spread : ℚ) :
    volumesFromTimestamp (-60) spread = none := by
  have h1 : pyTrunc ((-60 : ℚ) / 60) = -1 := by
    rw [pyTrunc, if_neg (by norm_num)]
    norm_num
  simp only [volumesFromTimestamp, h1]
  rw [if_pos (Or.inl (by decide))]

/-- At spread `= 1000` points any nonempty run has a faulting call. -/
theorem not_volumesOk_spread1000 (startDate dtime : ℚ) (n : ℕ) (hn : n ≠ 0) :
    ¬ volumesOk startDate dtime (((1000 : ℤ) : ℚ) / 100000) n := by
  intro h
  have h0 := h 0 (by omega)
  rw [volumesFromTimestamp_spread1000] at h0
  simp at h0

/-- A density-1 run started at 1969.12.31 (day `-1`) reaches the timestamp
`-60` at its 1439-th synthesizer call, which faults. -/
theorem not_volumesOk_preEpochDay (spread : ℚ) (n : ℕ) (hn : 1439 ≤ n) :
    ¬ volumesOk (((-1 : ℤ) : ℚ) * 86400) ((60 : ℚ) / ((1 : ℤ) : ℚ)) spread n := by
  intro h
  have h1 := h 1438 (by omega)
  have harg : ((-1 : ℤ) : ℚ) * 86400
      + (((1438 : ℕ) : ℚ) + 1) * ((60 : ℚ) / ((1 : ℤ) : ℚ)) = -60 := by
    norm_num
  rw [harg, volumesFromTimestamp_neg60] at h1
  simp at h1

/-- A run whose `n` synthesizer calls all succeed has, for `1 ≤ k ≤ n`, a
successful call at `startDate + k * deltaTime`. -/
theorem volumesOk_call (startDate dtime spread : ℚ) (n : ℕ)
    (hok : volumesOk startDate dtime spread n) (k : ℕ) (hk1 : 1 ≤ k)
    (hkn : k ≤ n) :
    (volumesFromTimestamp (startDate + (k : ℚ) * dtime) spread).isSome = true := by
  have h := hok (k - 1) (by omega)
  have harg : startDate + (((k - 1 : ℕ) : ℚ) + 1) * dtime
      = startDate + (k : ℚ) * dtime := by
    have hc : ((k - 1 : ℕ) : ℚ) = (k : ℚ) - 1 := by
      push_cast [Nat.cast_sub hk1]
      ring
    rw [hc]
    ring
  rwa [harg] at h

/-- On a start date at or after the epoch, with an integer spread of
`spts ≠ 1000` points and a positive density, every synthesizer call of every
run succeeds: all call timestamps are nonnegative. -/
theorem volumesOk_of_valid (sd spts den : ℤ) (n : ℕ)
    (hsd : 0 ≤ sd) (h6 : 0 < den) (hs : spts ≠ 1000) :
    volumesOk ((sd : ℚ) * 86400) ((60 : ℚ) / (den : ℚ)) ((spts : ℚ) / 100000) n := by
  intro j hj
  refine volumesFromTimestamp_isSome _ spts ?_ hs
  have hden : (0 : ℚ) < (den : ℚ) := by exact_mod_cast h6
  have hdt : 0 < (60 : ℚ) / (den : ℚ) := by positivity
  have hsd' : (0 : ℚ) ≤ (sd : ℚ) := by exact_mod_cast hsd
  have hj1 : (0 : ℚ) < (j : ℚ) + 1 := by positivity
  nlinarith [mul_pos hj1 hdt]

/-! ### Arithmetic facts about the tick count and Python numerics -/

theorem claimedCount_eq (sd ed density : ℤ) (hd : 0 < density) :
    claimedCount sd ed density = (ed - sd + 1) * 1440 * density := by
  have hdq : ((density : ℚ)) ≠ 0 := by exact_mod_cast hd.ne'
  have : (((ed : ℚ) * 86400 + 86400) - (sd : ℚ) * 86400) / ((60 : ℚ) / (density : ℚ))
      = (((ed - sd + 1) * 1440 * density : ℤ) : ℚ) := by
    field_simp
    ring
  rw [claimedCount, this, Int.ceil_intCast]

theorem pyMod_eq_fract (x m : ℚ) (hm : m ≠ 0) :
    pyMod x m = m * Int.fract (x / m) := by
  rw [pyMod, Int.fract]
  field_simp

theorem pyMod_nonneg (x m : ℚ) (hm : 0 < m) : 0 ≤ pyMod x m := by
  rw [pyMod_eq_fract x m hm.ne']
  exact mul_nonneg hm.le (Int.fract_nonneg _)

theorem pyMod_lt (x m : ℚ) (hm : 0 < m) : pyMod x m < m := by
  rw [pyMod_eq_fract x m hm.ne']
  calc m * Int.fract (x / m) < m * 1 :=
        (mul_lt_mul_left hm).mpr (Int.fract_lt_one _)
    _ = m := mul_one m

theorem floor_floor_div (x : ℚ) (m : ℤ) (hm : 0 < m) :
    ⌊((⌊x⌋ : ℚ)) / (m : ℚ)⌋ = ⌊x / (m : ℚ)⌋ := by
  have hmq : (0 : ℚ) < (m : ℚ) := by exact_mod_cast hm
  apply le_antisymm
  · apply Int.floor_le_floor
    gcongr
    exact Int.floor_le x
  · rw [Int.le_floor, le_div_iff₀ hmq]
    have h1 : ((⌊x / (m : ℚ)⌋ : ℚ)) * (m : ℚ) ≤ (x / (m : ℚ)) * (m : ℚ) :=
      mul_le_mul_of_nonneg_right (Int.floor_le _) hmq.le
    rw [div_mul_cancel₀ x hmq.ne'] at h1
    have h3 : ⌊x / (m : ℚ)⌋ * m ≤ ⌊x⌋ := Int.le_floor.mpr (by push_cast; exact h1)
    exact_mod_cast h3

/-! ### Characterization of the linear while-loop -/

theorem linearLoop_spec (bound dtime dP s : ℚ) (hdt : 0 < dtime) :
    ∀ (fuel : ℕ) (st : Tick),
      (⌈(bound - st.timestamp) / dtime⌉).toNat ≤ fuel →
      linearLoop bound dtime dP s fuel st
        = some (List.ofFn fun k : Fin ((⌈(bound - st.timestamp) / dtime⌉).toNat) =>
            stepN (fun _ => linStep dtime dP s) 0 k st) := by
  intro fuel
  induction fuel with
  | zero =>
    intro st hf
    have h0 : (⌈(bound - st.timestamp) / dtime⌉).toNat = 0 := Nat.le_zero.mp hf
    have hnb : ¬ st.timestamp < bound := by
      intro hlt
      have hp : 0 < (bound - st.timestamp) / dtime := div_pos (by linarith) hdt
      have : 0 < ⌈(bound - st.timestamp) / dtime⌉ := Int.ceil_pos.mpr hp
      omega
    rw [h0]
    simp [linearLoop, hnb]
  | succ fuel ih =>
    intro st hf
    by_cases hb : st.timestamp < bound
    · have hpos : 0 < ⌈(bound - st.timestamp) / dtime⌉ :=
        Int.ceil_pos.mpr (div_pos (by linarith) hdt)
      obtain ⟨m, hm⟩ : ∃ m, (⌈(bound - st.timestamp) / dtime⌉).toNat = m + 1 :=
        ⟨(⌈(bound - st.timestamp) / dtime⌉).toNat - 1, by omega⟩
      have hceil' : ⌈(bound - (st.timestamp + dtime)) / dtime⌉
          = ⌈(bound - st.timestamp) / dtime⌉ - 1 := by
        have hq : (bound - (st.timestamp + dtime)) / dtime
            = (bound - st.timestamp) / dtime - 1 := by
          field_simp
          ring
        rw [hq, Int.ceil_sub_one]
      have hm' : (⌈(bound - (linStep dtime dP s st).timestamp) / dtime⌉).toNat = m := by
        have ht' : (linStep dtime dP s st).timestamp = st.timestamp + dtime := rfl
        rw [ht', hceil']
        omega
      have hrec := ih (linStep dtime dP s st) (by rw [hm']; omega)
      rw [hm'] at hrec
      simp only [linearLoop, if_pos hb, hrec, Option.map_some']
      rw [hm, List.ofFn_succ]
      simp only [Fin.val_zero, Fin.val_succ]
      have hzero : stepN (fun _ => linStep dtime dP s) 0 0 st = st := rfl
      rw [hzero]
      have htail : (fun k : Fin m =>
            stepN (fun _ => linStep dtime dP s) 0 ((k : ℕ) + 1) st)
          = fun k : Fin m =>
            stepN (fun _ => linStep dtime dP s) 0 (k : ℕ) (linStep dtime dP s st) := by
        funext k
        have h1 : stepN (fun _ => linStep dtime dP s) 0 ((k : ℕ) + 1) st
            = stepN (fun _ => linStep dtime dP s) 1 (k : ℕ) (linStep dtime dP s st) := rfl
        rw [h1]
        exact stepN_constStep _ (k : ℕ) 1 0 _
      rw [htail]
    · have hle : ⌈(bound - st.timestamp) / dtime⌉ ≤ 0 := by
        apply Int.ceil_le.mpr
        push_cast
        have hnum : bound - st.timestamp ≤ 0 := by linarith
        have : (bound - st.timestamp) / dtime ≤ 0 / dtime := by gcongr
        simpa using this
      have h0 : (⌈(bound - st.timestamp) / dtime⌉).toNat = 0 := by omega
      rw [h0]
      simp [linearLoop, hb]

theorem linearModel_eq (sd ed sp ep dtime s : ℚ) (hdt : 0 < dtime)
    (hdd : ed + 86400 - sd - dtime ≠ 0)
    (hok : volumesOk sd dtime s (Int.toNat ⌈(ed + 86400 - sd) / dtime⌉)) :
    linearModel sd ed sp ep dtime s
      = some (List.ofFn fun k : Fin ((⌈(ed + 86400 - sd) / dtime⌉).toNat) =>
          stepN (fun _ => linStep dtime (dtime / (ed + 86400 - sd - dtime) * (ep - sp)) s)
            0 k (startState sd sp s)) := by
  have h := linearLoop_spec (ed + 86400) dtime
    (dtime / (ed + 86400 - sd - dtime) * (ep - sp)) s hdt
    (Int.toNat ⌈(ed + 86400 - sd) / dtime⌉) (startState sd sp s) (by rfl)
  simp only [linearModel]
  rw [if_neg hdd, if_pos hok]
  simpa [startState] using h

/-! ### Generic invariants along a loop trajectory -/

theorem stepN_setInvariant (step : ℕ → Tick → Tick) (f : Tick → ℚ) (c : ℚ)
    (hS : ∀ j st, f (step j st) = c) :
    ∀ (k i : ℕ) (st : Tick), 1 ≤ k → f (stepN step i k st) = c := by
  intro k i st hk
  obtain ⟨m, rfl⟩ : ∃ m, k = m + 1 := ⟨k - 1, by omega⟩
  rw [stepN_succ_right]
  exact hS (i + m) (stepN step i m st)

theorem stepN_preserveInvariant (step : ℕ → Tick → Tick) (f : Tick → ℚ)
    (hS : ∀ j st, f (step j st) = f st) :
    ∀ (k i : ℕ) (st : Tick), f (stepN step i k st) = f st := by
  intro k
  induction k with
  | zero => intro i st; rfl
  | succ k ih =>
    intro i st
    have hs : stepN step i (k + 1) st = stepN step (i + 1) k (step i st) := rfl
    rw [hs, ih (i + 1) (step i st), hS i st]

/-- Every generator materializes its tick list as (at most) two consecutive
`forLoop` phases over the same running state: a first phase of `n1` steps
from the start state and a second phase of `n2` steps continuing from the
final state of the first. -/
def twoPhase (S1 S2 : ℕ → Tick → Tick) (n1 n2 : ℕ) (st0 : Tick) : List Tick :=
  (forLoop S1 0 n1 st0).1 ++ (forLoop S2 n1 n2 (forLoop S1 0 n1 st0).2).1

theorem forLoop_length (step : ℕ → Tick → Tick) (n i : ℕ) (st : Tick) :
    (forLoop step i n st).1.length = n := by
  rw [forLoop_fst]
  simp

theorem forLoop_getElem (step : ℕ → Tick → Tick) (n i k : ℕ) (st : Tick)
    (hk : k < n) : (forLoop step i n st).1[k]? = some (stepN step i k st) := by
  rw [forLoop_fst, List.getElem?_ofFn]
  simp [List.ofFnNthVal, hk]

theorem twoPhase_length (S1 S2 : ℕ → Tick → Tick) (n1 n2 : ℕ) (st0 : Tick) :
    (twoPhase S1 S2 n1 n2 st0).length = n1 + n2 := by
  simp [twoPhase, forLoop_length]

theorem twoPhase_getElem_lt (S1 S2 : ℕ → Tick → Tick) (n1 n2 k : ℕ) (st0 : Tick)
    (hk : k < n1) :
    (twoPhase S1 S2 n1 n2 st0)[k]? = some (stepN S1 0 k st0) := by
  rw [twoPhase, List.getElem?_append, forLoop_length, if_pos hk]
  exact forLoop_getElem S1 n1 0 k st0 hk

theorem twoPhase_getElem_ge (S1 S2 : ℕ → Tick → Tick) (n1 n2 k : ℕ) (st0 : Tick)
    (h1 : n1 ≤ k) (hk : k < n1 + n2) :
    (twoPhase S1 S2 n1 n2 st0)[k]?
      = some (stepN S2 n1 (k - n1) (stepN S1 0 n1 st0)) := by
  rw [twoPhase, List.getElem?_append, forLoop_length,
    if_neg (by omega : ¬ k < n1), forLoop_snd]
  exact forLoop_getElem S2 n2 n1 (k - n1) _ (by omega)

theorem twoPhase_getElem_zero (S1 S2 : ℕ → Tick → Tick) (n1 n2 : ℕ) (st0 : Tick)
    (h : 0 < n1 + n2) : (twoPhase S1 S2 n1 n2 st0)[0]? = some st0 := by
  rcases Nat.eq_zero_or_pos n1 with h1 | h1
  · subst h1
    rw [twoPhase_getElem_ge S1 S2 0 n2 0 st0 (le_refl 0) h]
    rfl
  · rw [twoPhase_getElem_lt S1 S2 n1 n2 0 st0 h1]
    rfl

theorem twoPhase_timestamp (S1 S2 : ℕ → Tick → Tick) (dtime : ℚ)
    (hT1 : ∀ j st, (S1 j st).timestamp = st.timestamp + dtime)
    (hT2 : ∀ j st, (S2 j st).timestamp = st.timestamp + dtime)
    (n1 n2 k : ℕ) (st0 : Tick) (hk : k < n1 + n2) :
    ((twoPhase S1 S2 n1 n2 st0)[k]?).map Tick.timestamp
      = some (st0.timestamp + k * dtime) := by
  rcases lt_or_ge k n1 with h1 | h1
  · rw [twoPhase_getElem_lt S1 S2 n1 n2 k st0 h1]
    simp [stepN_timestamp S1 dtime hT1 k 0 st0]
  · rw [twoPhase_getElem_ge S1 S2 n1 n2 k st0 h1 hk]
    have hB : (stepN S1 0 n1 st0).timestamp = st0.timestamp + n1 * dtime :=
      stepN_timestamp S1 dtime hT1 n1 0 st0
    have h2 : (stepN S2 n1 (k - n1) (stepN S1 0 n1 st0)).timestamp
        = (stepN S1 0 n1 st0).timestamp + (k - n1 : ℕ) * dtime :=
      stepN_timestamp S2 dtime hT2 (k - n1) n1 _
    rw [Option.map_some', h2, hB]
    have hc : ((k - n1 : ℕ) : ℚ) = (k : ℚ) - (n1 : ℚ) := by
      push_cast [Nat.cast_sub h1]
      ring
    rw [hc]
    ring_nf

theorem twoPhase_setInvariant_pos (S1 S2 : ℕ → Tick → Tick) (f : Tick → ℚ) (c : ℚ)
    (hS1 : ∀ j st, f (S1 j st) = c) (hS2 : ∀ j st, f (S2 j st) = c)
    (n1 n2 k : ℕ) (st0 : Tick) (hk1 : 1 ≤ k) (hk : k < n1 + n2) :
    ((twoPhase S1 S2 n1 n2 st0)[k]?).map f = some c := by
  rcases lt_or_ge k n1 with h1 | h1
  · rw [twoPhase_getElem_lt S1 S2 n1 n2 k st0 h1]
    simp [stepN_setInvariant S1 f c hS1 k 0 st0 hk1]
  · rw [twoPhase_getElem_ge S1 S2 n1 n2 k st0 h1 hk]
    rcases Nat.eq_zero_or_pos (k - n1) with h2 | h2
    · have hn1 : 1 ≤ n1 := by omega
      rw [h2]
      simpa using stepN_setInvariant S1 f c hS1 n1 0 st0 hn1
    · simpa using stepN_setInvariant S2 f c hS2 (k - n1) n1 _ h2

theorem twoPhase_setInvariant (S1 S2 : ℕ → Tick → Tick) (f : Tick → ℚ) (c : ℚ)
    (hS1 : ∀ j st, f (S1 j st) = c) (hS2 : ∀ j st, f (S2 j st) = c)
    (n1 n2 k : ℕ) (st0 : Tick) (h0 : f st0 = c) (hk : k < n1 + n2) :
    ((twoPhase S1 S2 n1 n2 st0)[k]?).map f = some c := by
  rcases Nat.eq_zero_or_pos k with h1 | h1
  · subst h1
    rw [twoPhase_getElem_zero S1 S2 n1 n2 st0 (by omega)]
    simp [h0]
  · exact twoPhase_setInvariant_pos S1 S2 f c hS1 hS2 n1 n2 k st0 h1 hk

/-- Every tick after the first of a two-phase run carries a volume pair
whose difference is the point spread `spread * 1e5`, provided the
synthesizer call that produced it succeeded. -/
theorem twoPhase_volumeSpread (S1 S2 : ℕ → Tick → Tick) (dtime spread : ℚ)
    (hT1 : ∀ j st, (S1 j st).timestamp = st.timestamp + dtime)
    (hT2 : ∀ j st, (S2 j st).timestamp = st.timestamp + dtime)
    (hV1 : ∀ j st, (S1 j st).bidVolume = (volumesVal (st.timestamp + dtime) spread).1
      ∧ (S1 j st).askVolume = (volumesVal (st.timestamp + dtime) spread).2)
    (hV2 : ∀ j st, (S2 j st).bidVolume = (volumesVal (st.timestamp + dtime) spread).1
      ∧ (S2 j st).askVolume = (volumesVal (st.timestamp + dtime) spread).2)
    (n1 n2 k : ℕ) (st0 : Tick) (hk1 : 1 ≤ k) (hk : k < n1 + n2)
    (hs : (volumesFromTimestamp (st0.timestamp + k * dtime) spread).isSome = true) :
    ((twoPhase S1 S2 n1 n2 st0)[k]?).map volumeSpreadOf
      = some (spread * 100000) := by
  rcases lt_or_ge k n1 with h1 | h1
  · rw [twoPhase_getElem_lt S1 S2 n1 n2 k st0 h1]
    have hV := stepN_volumes S1 dtime spread hT1 hV1 k 0 st0 hk1
    simp only [Option.map_some', volumeSpreadOf]
    rw [hV.1, hV.2, volumesVal_sub _ _ hs]
  · rw [twoPhase_getElem_ge S1 S2 n1 n2 k st0 h1 hk]
    rcases Nat.eq_zero_or_pos (k - n1) with h2 | h2
    · have hn1 : 1 ≤ n1 := by omega
      have hkn1 : k = n1 := by omega
      subst hkn1
      rw [h2]
      have hV := stepN_volumes S1 dtime spread hT1 hV1 k 0 st0 hn1
      simp only [stepN, Option.map_some', volumeSpreadOf]
      rw [hV.1, hV.2, volumesVal_sub _ _ hs]
    · have hB : (stepN S1 0 n1 st0).timestamp = st0.timestamp + n1 * dtime :=
        stepN_timestamp S1 dtime hT1 n1 0 st0
      have hV := stepN_volumes S2 dtime spread hT2 hV2 (k - n1) n1
        (stepN S1 0 n1 st0) h2
      rw [hB] at hV
      have harg : st0.timestamp + (n1 : ℚ) * dtime + ((k - n1 : ℕ) : ℚ) * dtime
          = st0.timestamp + (k : ℚ) * dtime := by
        have hc : ((k - n1 : ℕ) : ℚ) = (k : ℚ) - (n1 : ℚ) := by
          push_cast [Nat.cast_sub h1]
          ring
        rw [hc]
        ring
      rw [harg] at hV
      simp only [Option.map_some', volumeSpreadOf]
      rw [hV.1, hV.2, volumesVal_sub _ _ hs]

/-! ### Step-level properties of each generator body -/

theorem linStep_timestamp (dtime dP s : ℚ) (st : Tick) :
    (linStep dtime dP s st).timestamp = st.timestamp + dtime := rfl

theorem linStep_spread (dtime dP s : ℚ) (st : Tick) :
    spreadOf (linStep dtime dP s st) = spreadOf st := by
  simp [linStep, spreadOf]

theorem linStep_volumes (dtime dP s : ℚ) (st : Tick) :
    (linStep dtime dP s st).bidVolume = (volumesVal (st.timestamp + dtime) s).1
      ∧ (linStep dtime dP s st).askVolume
        = (volumesVal (st.timestamp + dtime) s).2 := ⟨rfl, rfl⟩

theorem zigzagStep_timestamp (dtime s lift : ℚ) (backward : ℤ) (j : ℕ) (st : Tick) :
    (zigzagStep dtime s lift backward j st).timestamp = st.timestamp + dtime := rfl

theorem zigzagStep_spread (dtime s lift : ℚ) (backward : ℤ) (j : ℕ) (st : Tick) :
    spreadOf (zigzagStep dtime s lift backward j st) = s := by
  simp [zigzagStep, spreadOf]

theorem zigzagStep_volumes (dtime s lift : ℚ) (backward : ℤ) (j : ℕ) (st : Tick) :
    (zigzagStep dtime s lift backward j st).bidVolume
        = (volumesVal (st.timestamp + dtime) s).1
      ∧ (zigzagStep dtime s lift backward j st).askVolume
        = (volumesVal (st.timestamp + dtime) s).2 := ⟨rfl, rfl⟩

theorem zigzagTailStep_timestamp (dtime s lift : ℚ) (j : ℕ) (st : Tick) :
    (zigzagTailStep dtime s lift j st).timestamp = st.timestamp + dtime := rfl

theorem zigzagTailStep_spread (dtime s lift : ℚ) (j : ℕ) (st : Tick) :
    spreadOf (zigzagTailStep dtime s lift j st) = s := by
  simp [zigzagTailStep, spreadOf]

theorem zigzagTailStep_volumes (dtime s lift : ℚ) (j : ℕ) (st : Tick) :
    (zigzagTailStep dtime s lift j st).bidVolume
        = (volumesVal (st.timestamp + dtime) s).1
      ∧ (zigzagTailStep dtime s lift j st).askVolume
        = (volumesVal (st.timestamp + dtime) s).2 := ⟨rfl, rfl⟩

theorem waveStep_timestamp (sp dP vol dtime s : ℚ) (sinF : ℚ → ℚ) (piV : ℚ)
    (count : ℤ) (j : ℕ) (st : Tick) :
    (waveStep sp dP vol dtime s sinF piV count j st).timestamp
      = st.timestamp + dtime := rfl

theorem waveStep_spread (sp dP vol dtime s : ℚ) (sinF : ℚ → ℚ) (piV : ℚ)
    (count : ℤ) (j : ℕ) (st : Tick) :
    spreadOf (waveStep sp dP vol dtime s sinF piV count j st) = s := by
  simp [waveStep, spreadOf]

theorem waveStep_volumes (sp dP vol dtime s : ℚ) (sinF : ℚ → ℚ) (piV : ℚ)
    (count : ℤ) (j : ℕ) (st : Tick) :
    (waveStep sp dP vol dtime s sinF piV count j st).bidVolume
        = (volumesVal (st.timestamp + dtime) s).1
      ∧ (waveStep sp dP vol dtime s sinF piV count j st).askVolume
        = (volumesVal (st.timestamp + dtime) s).2 := ⟨rfl, rfl⟩

theorem curveStep_timestamp (sp dP dtime s : ℚ) (expF : ℚ → ℚ) (d : ℚ)
    (count : ℤ) (j : ℕ) (st : Tick) :
    (curveStep sp dP dtime s expF d count j st).timestamp
      = st.timestamp + dtime := rfl

theorem curveStep_spread (sp dP dtime s : ℚ) (expF : ℚ → ℚ) (d : ℚ)
    (count : ℤ) (j : ℕ) (st : Tick) :
    spreadOf (curveStep sp dP dtime s expF d count j st) = s := by
  simp [curveStep, spreadOf]

theorem curveStep_volumes (sp dP dtime s : ℚ) (expF : ℚ → ℚ) (d : ℚ)
    (count : ℤ) (j : ℕ) (st : Tick) :
    (curveStep sp dP dtime s expF d count j st).bidVolume
        = (volumesVal (st.timestamp + dtime) s).1
      ∧ (curveStep sp dP dtime s expF d count j st).askVolume
        = (volumesVal (st.timestamp + dtime) s).2 := ⟨rfl, rfl⟩

theorem randomStep_timestamp (dtime dP vol s : ℚ) (noise : ℕ → ℚ) (j : ℕ) (st : Tick) :
    (randomStep dtime dP vol s noise j st).timestamp = st.timestamp + dtime := rfl

theorem randomStep_spread (dtime dP vol s : ℚ) (noise : ℕ → ℚ) (j : ℕ) (st : Tick) :
    spreadOf (randomStep dtime dP vol s noise j st) = s := by
  simp [randomStep, spreadOf]

theorem randomStep_volumes (dtime dP vol s : ℚ) (noise : ℕ → ℚ) (j : ℕ) (st : Tick) :
    (randomStep dtime dP vol s noise j st).bidVolume
        = (volumesVal (st.timestamp + dtime) s).1
      ∧ (randomStep dtime dP vol s noise j st).askVolume
        = (volumesVal (st.timestamp + dtime) s).2 := ⟨rfl, rfl⟩

theorem startState_spread (sd sp s : ℚ) : spreadOf (startState sd sp s) = s := by
  simp [startState, spreadOf]

/-! ### Each generator in two-phase normal form -/

theorem linearModel_twoPhase (sd ed sp ep dtime s : ℚ) (hdt : 0 < dtime)
    (hdd : ed + 86400 - sd - dtime ≠ 0)
    (hok : volumesOk sd dtime s (Int.toNat ⌈(ed + 86400 - sd) / dtime⌉)) :
    linearModel sd ed sp ep dtime s
      = some (twoPhase
          (fun _ => linStep dtime (dtime / (ed + 86400 - sd - dtime) * (ep - sp)) s)
          (fun _ => linStep dtime (dtime / (ed + 86400 - sd - dtime) * (ep - sp)) s)
          ((⌈(ed + 86400 - sd) / dtime⌉).toNat) 0 (startState sd sp s)) := by
  rw [linearModel_eq sd ed sp ep dtime s hdt hdd hok]
  simp only [twoPhase, forLoop, List.append_nil]
  rw [forLoop_fst]

theorem zigzagModel_twoPhase (sd ed sp ep dtime s vol : ℚ)
    (hc : ⌈(ed + 86400 - sd) / dtime⌉ ≠ 0)
    (hb1 : pyTrunc (vol * 50) ≠ 1)
    (hok : volumesOk sd dtime s
      ((⌈(ed + 86400 - sd) / dtime⌉ - pyTrunc (vol * 50)).toNat
        + (pyTrunc (vol * 50)).toNat)) :
    ∃ lift lift2 : ℚ,
      zigzagModel sd ed sp ep dtime s vol
        = some (twoPhase (zigzagStep dtime s lift (pyTrunc (vol * 50)))
            (zigzagTailStep dtime s lift2)
            (⌈(ed + 86400 - sd) / dtime⌉ - pyTrunc (vol * 50)).toNat
            (pyTrunc (vol * 50)).toNat
            (startState sd sp s)) := by
  refine ⟨(ep - sp) / ((⌈(ed + 86400 - sd) / dtime⌉ : ℤ) : ℚ),
    (ep - (forLoop (zigzagStep dtime s
        ((ep - sp) / ((⌈(ed + 86400 - sd) / dtime⌉ : ℤ) : ℚ)) (pyTrunc (vol * 50))) 0
        (⌈(ed + 86400 - sd) / dtime⌉ - pyTrunc (vol * 50)).toNat
        (startState sd sp s)).2.bidPrice) / ((pyTrunc (vol * 50) : ℚ) - 1), ?_⟩
  simp only [zigzagModel, twoPhase]
  rw [if_neg hc, if_neg hb1, if_pos hok]

theorem waveModel_twoPhase (sd ed sp ep dtime s vol : ℚ) (sinF : ℚ → ℚ) (piV : ℚ)
    (h1 : ⌈(ed + 86400 - sd) / dtime⌉ ≠ 1)
    (hok : volumesOk sd dtime s ((⌈(ed + 86400 - sd) / dtime⌉).toNat)) :
    waveModel sd ed sp ep dtime s vol sinF piV
      = some (twoPhase
          (waveStep sp (ep - sp) vol dtime s sinF piV ⌈(ed + 86400 - sd) / dtime⌉)
          (waveStep sp (ep - sp) vol dtime s sinF piV ⌈(ed + 86400 - sd) / dtime⌉)
          ((⌈(ed + 86400 - sd) / dtime⌉).toNat) 0 (startState sd sp s)) := by
  simp only [waveModel, twoPhase]
  rw [if_neg h1, if_pos hok]
  simp only [forLoop, List.append_nil]

theorem curveModel_twoPhase (sd ed sp ep dtime s vol : ℚ) (expF : ℚ → ℚ)
    (hvol : vol ≠ 0)
    (hden : ¬ (1 ≤ ⌈(ed + 86400 - sd) / dtime⌉ ∧
      1 - expF (((⌈(ed + 86400 - sd) / dtime⌉ : ℚ) - 1)
        / ((⌈(ed + 86400 - sd) / dtime⌉ : ℚ) / vol)) = 0))
    (hok : volumesOk sd dtime s ((⌈(ed + 86400 - sd) / dtime⌉).toNat)) :
    curveModel sd ed sp ep dtime s vol expF
      = some (twoPhase
          (curveStep sp (ep - sp) dtime s expF
            ((⌈(ed + 86400 - sd) / dtime⌉ : ℚ) / vol) ⌈(ed + 86400 - sd) / dtime⌉)
          (curveStep sp (ep - sp) dtime s expF
            ((⌈(ed + 86400 - sd) / dtime⌉ : ℚ) / vol) ⌈(ed + 86400 - sd) / dtime⌉)
          ((⌈(ed + 86400 - sd) / dtime⌉).toNat) 0 (startState sd sp s)) := by
  simp only [curveModel, twoPhase]
  rw [if_neg hvol, if_neg hden, if_pos hok]
  simp only [forLoop, List.append_nil]

theorem randomModel_twoPhase (sd ed sp ep dtime s vol : ℚ) (noise : ℕ → ℚ)
    (hdd : ed + 86400 - sd - dtime ≠ 0)
    (hn : (⌈(ed + 86400 - sd) / dtime⌉).toNat ≠ 0)
    (hok : volumesOk sd dtime s ((⌈(ed + 86400 - sd) / dtime⌉).toNat)) :
    randomModel sd ed sp ep dtime s vol noise
      = some (setLastPrices ep s (twoPhase
          (randomStep dtime (dtime / (ed + 86400 - sd - dtime) * (ep - sp)) vol s noise)
          (randomStep dtime (dtime / (ed + 86400 - sd - dtime) * (ep - sp)) vol s noise)
          ((⌈(ed + 86400 - sd) / dtime⌉).toNat) 0 (startState sd sp s))) := by
  simp only [randomModel, twoPhase]
  rw [if_neg hdd, if_pos hok]
  have hne : (forLoop
      (randomStep dtime (dtime / (ed + 86400 - sd - dtime) * (ep - sp)) vol s noise)
      0 ((⌈(ed + 86400 - sd) / dtime⌉).toNat) (startState sd sp s)).1 ≠ [] := by
    intro h
    have hl := forLoop_length
      (randomStep dtime (dtime / (ed + 86400 - sd - dtime) * (ep - sp)) vol s noise)
      ((⌈(ed + 86400 - sd) / dtime⌉).toNat) 0 (startState sd sp s)
    rw [h] at hl
    simp at hl
    exact hn hl.symm
  rw [if_neg hne]
  simp only [forLoop, List.append_nil]

/-! ### Properties of the final-tick price override of the random model -/

theorem setLastPrices_length (p s : ℚ) :
    ∀ l : List Tick, (setLastPrices p s l).length = l.length := by
  intro l
  induction l with
  | nil => rfl
  | cons t rest ih =>
    cases rest with
    | nil => rfl
    | cons a as =>
      simp only [setLastPrices, List.length_cons] at ih ⊢
      omega

theorem setLastPrices_getElem_lt (p s : ℚ) :
    ∀ (l : List Tick) (k : ℕ), k + 1 < l.length →
      (setLastPrices p s l)[k]? = l[k]? := by
  intro l
  induction l with
  | nil => intro k hk; simp at hk
  | cons t rest ih =>
    intro k hk
    cases rest with
    | nil => simp at hk
    | cons a as =>
      cases k with
      | zero => simp [setLastPrices]
      | succ k =>
        have hk' : k + 1 < (a :: as).length := by
          simp only [List.length_cons] at hk ⊢
          omega
        simp only [setLastPrices, List.getElem?_cons_succ]
        exact ih k hk'

theorem setLastPrices_proj (p s : ℚ) (f : Tick → ℚ)
    (hf : ∀ t : Tick, f { t with bidPrice := p, askPrice := p + s } = f t) :
    ∀ (l : List Tick) (k : ℕ),
      ((setLastPrices p s l)[k]?).map f = (l[k]?).map f := by
  intro l
  induction l with
  | nil => intro k; rfl
  | cons t rest ih =>
    intro k
    cases rest with
    | nil =>
      cases k with
      | zero => simp [setLastPrices, hf t]
      | succ k => simp [setLastPrices]
    | cons a as =>
      cases k with
      | zero => simp [setLastPrices]
      | succ k =>
        simp only [setLastPrices, List.getElem?_cons_succ]
        exact ih k

theorem lastBidAsk_setLastPrices (p s : ℚ) :
    ∀ l : List Tick, l ≠ [] →
      lastBidAsk (setLastPrices p s l) = some (p, p + s) := by
  intro l
  induction l with
  | nil => intro h; exact absurd rfl h
  | cons t rest ih =>
    intro _
    cases rest with
    | nil => simp [setLastPrices, lastBidAsk]
    | cons a as =>
      have hlen : (setLastPrices p s (a :: as)).length = (a :: as).length :=
        setLastPrices_length p s (a :: as)
      obtain ⟨y, ys, hys⟩ : ∃ y ys, setLastPrices p s (a :: as) = y :: ys := by
        cases hx : setLastPrices p s (a :: as) with
        | nil => rw [hx] at hlen; simp at hlen
        | cons y ys => exact ⟨y, ys, rfl⟩
      have step : setLastPrices p s (t :: a :: as) = t :: setLastPrices p s (a :: as) := rfl
      rw [step, lastBidAsk, hys, List.getLast?_cons_cons, ← hys, ← lastBidAsk]
      exact ih (by simp)

/-! ### The driver under valid input -/

theorem rowsOf_matchOutcome (o : Option (List Tick)) :
    rowsOf (match o with
      | Option.none => RunResult.crash
      | Option.some r => RunResult.output r) = o := by
  cases o <;> rfl

theorem rowsOf_mainRun (sd ed : ℤ) (sp ep : ℚ) (dg spts den : ℤ)
    (pat : Pattern) (vol : ℚ) (sinF : ℚ → ℚ) (piV : ℚ) (expF : ℚ → ℚ)
    (noise : ℕ → ℚ) (hv : ValidInput sd ed sp ep dg spts den vol) :
    rowsOf (mainRun sd ed sp ep dg spts den pat vol sinF piV expF noise)
      = match pat with
        | .linear => linearModel ((sd : ℚ) * 86400) ((ed : ℚ) * 86400) sp ep
            ((60 : ℚ) / (den : ℚ)) ((spts : ℚ) / 100000)
        | .zigzag => zigzagModel ((sd : ℚ) * 86400) ((ed : ℚ) * 86400) sp ep
            ((60 : ℚ) / (den : ℚ)) ((spts : ℚ) / 100000) vol
        | .wave => waveModel ((sd : ℚ) * 86400) ((ed : ℚ) * 86400) sp ep
            ((60 : ℚ) / (den : ℚ)) ((spts : ℚ) / 100000) vol sinF piV
        | .curve => curveModel ((sd : ℚ) * 86400) ((ed : ℚ) * 86400) sp ep
            ((60 : ℚ) / (den : ℚ)) ((spts : ℚ) / 100000) vol expF
        | .random => randomModel ((sd : ℚ) * 86400) ((ed : ℚ) * 86400) sp ep
            ((60 : ℚ) / (den : ℚ)) ((spts : ℚ) / 100000) vol noise := by
  obtain ⟨h1, h2, h3, h4, h5, h6, h7⟩ := hv
  simp only [mainRun]
  rw [if_neg (by omega : ¬ ed < sd), if_neg (by omega : ¬ dg ≤ 0),
    if_neg (by push_neg; exact ⟨h3, h4⟩ : ¬ (sp ≤ 0 ∨ ep ≤ 0)),
    if_neg (by omega : ¬ spts < 0), if_neg (by omega : ¬ den ≤ 0),
    if_neg (by linarith : ¬ vol ≤ 0)]
  cases pat <;> rw [rowsOf_matchOutcome]

/-! ### Numeric facts under valid input -/

theorem ceil_model_count (sd ed den : ℤ) :
    ⌈((ed : ℚ) * 86400 + 86400 - (sd : ℚ) * 86400) / ((60 : ℚ) / (den : ℚ))⌉
      = claimedCount sd ed den := rfl

theorem dtime_pos (den : ℤ) (h : 0 < den) : 0 < (60 : ℚ) / (den : ℚ) := by
  have : (0 : ℚ) < (den : ℚ) := by exact_mod_cast h
  positivity

theorem claimedCount_ge (sd ed den : ℤ) (h1 : sd ≤ ed) (h6 : 0 < den) :
    1440 ≤ claimedCount sd ed den := by
  rw [claimedCount_eq sd ed den h6]
  have had : (1 : ℤ) ≤ (ed - sd + 1) * den := by
    calc (1 : ℤ) ≤ ed - sd + 1 := by omega
      _ ≤ (ed - sd + 1) * den := le_mul_of_one_le_right (by omega) h6
  nlinarith [had]

theorem backward_nonneg (vol : ℚ) (h : 0 < vol) : 0 ≤ pyTrunc (vol * 50) := by
  rw [pyTrunc_of_nonneg (by positivity)]
  exact Int.floor_nonneg.mpr (by positivity)

theorem randomDenom_pos (sd ed den : ℤ) (h1 : sd ≤ ed) (h6 : 0 < den) :
    0 < (ed : ℚ) * 86400 + 86400 - (sd : ℚ) * 86400 - (60 : ℚ) / (den : ℚ) := by
  have hsd : (sd : ℚ) ≤ (ed : ℚ) := by exact_mod_cast h1
  have hden1 : (1 : ℚ) ≤ (den : ℚ) := by exact_mod_cast h6
  have hdt : (60 : ℚ) / (den : ℚ) ≤ 60 := by
    rw [div_le_iff₀ (by linarith)]
    nlinarith
  nlinarith

/-! ### The driver specialized to each pattern -/

theorem rowsOf_mainRun_linear (sd ed : ℤ) (sp ep : ℚ) (dg spts den : ℤ)
    (vol : ℚ) (sinF : ℚ → ℚ) (piV : ℚ) (expF : ℚ → ℚ) (noise : ℕ → ℚ)
    (hv : ValidInput sd ed sp ep dg spts den vol) :
    rowsOf (mainRun sd ed sp ep dg spts den Pattern.linear vol sinF piV expF noise)
      = linearModel ((sd : ℚ) * 86400) ((ed : ℚ) * 86400) sp ep
          ((60 : ℚ) / (den : ℚ)) ((spts : ℚ) / 100000) :=
  rowsOf_mainRun sd ed sp ep dg spts den Pattern.linear vol sinF piV expF noise hv

theorem rowsOf_mainRun_zigzag (sd ed : ℤ) (sp ep : ℚ) (dg spts den : ℤ)
    (vol : ℚ) (sinF : ℚ → ℚ) (piV : ℚ) (expF : ℚ → ℚ) (noise : ℕ → ℚ)
    (hv : ValidInput sd ed sp ep dg spts den vol) :
    rowsOf (mainRun sd ed sp ep dg spts den Pattern.zigzag vol sinF piV expF noise)
      = zigzagModel ((sd : ℚ) * 86400) ((ed : ℚ) * 86400) sp ep
          ((60 : ℚ) / (den : ℚ)) ((spts : ℚ) / 100000) vol :=
  rowsOf_mainRun sd ed sp ep dg spts den Pattern.zigzag vol sinF piV expF noise hv

theorem rowsOf_mainRun_wave (sd ed : ℤ) (sp ep : ℚ) (dg spts den : ℤ)
    (vol : ℚ) (sinF : ℚ → ℚ) (piV : ℚ) (expF : ℚ → ℚ) (noise : ℕ → ℚ)
    (hv : ValidInput sd ed sp ep dg spts den vol) :
    rowsOf (mainRun sd ed sp ep dg spts den Pattern.wave vol sinF piV expF noise)
      = waveModel ((sd : ℚ) * 86400) ((ed : ℚ) * 86400) sp ep
          ((60 : ℚ) / (den : ℚ)) ((spts : ℚ) / 100000) vol sinF piV :=
  rowsOf_mainRun sd ed sp ep dg spts den Pattern.wave vol sinF piV expF noise hv

theorem rowsOf_mainRun_curve (sd ed : ℤ) (sp ep : ℚ) (dg spts den : ℤ)
    (vol : ℚ) (sinF : ℚ → ℚ) (piV : ℚ) (expF : ℚ → ℚ) (noise : ℕ → ℚ)
    (hv : ValidInput sd ed sp ep dg spts den vol) :
    rowsOf (mainRun sd ed sp ep dg spts den Pattern.curve vol sinF piV expF noise)
      = curveModel ((sd : ℚ) * 86400) ((ed : ℚ) * 86400) sp ep
          ((60 : ℚ) / (den : ℚ)) ((spts : ℚ) / 100000) vol expF :=
  rowsOf_mainRun sd ed sp ep dg spts den Pattern.curve vol sinF piV expF noise hv

theorem rowsOf_mainRun_random (sd ed : ℤ) (sp ep : ℚ) (dg spts den : ℤ)
    (vol : ℚ) (sinF : ℚ → ℚ) (piV : ℚ) (expF : ℚ → ℚ) (noise : ℕ → ℚ)
    (hv : ValidInput sd ed sp ep dg spts den vol) :
    rowsOf (mainRun sd ed sp ep dg spts den Pattern.random vol sinF piV expF noise)
      = randomModel ((sd : ℚ) * 86400) ((ed : ℚ) * 86400) sp ep
          ((60 : ℚ) / (den : ℚ)) ((spts : ℚ) / 100000) vol noise :=
  rowsOf_mainRun sd ed sp ep dg spts den Pattern.random vol sinF piV expF noise hv

/-! ### Closed forms along the linear trajectory -/

theorem stepN_linStep_bid (dtime dP s : ℚ) :
    ∀ (k i : ℕ) (st : Tick),
      (stepN (fun _ => linStep dtime dP s) i k st).bidPrice
        = st.bidPrice + k * dP := by
  intro k
  induction k with
  | zero => intro i st; simp [stepN]
  | succ k ih =>
    intro i st
    have hs : stepN (fun _ => linStep dtime dP s) i (k + 1) st
        = stepN (fun _ => linStep dtime dP s) (i + 1) k (linStep dtime dP s st) := rfl
    rw [hs, ih (i + 1) (linStep dtime dP s st)]
    show st.bidPrice + dP + k * dP = _
    push_cast
    ring

theorem stepN_linStep_ask (dtime dP s : ℚ) :
    ∀ (k i : ℕ) (st : Tick),
      (stepN (fun _ => linStep dtime dP s) i k st).askPrice
        = st.askPrice + k * dP := by
  intro k
  induction k with
  | zero => intro i st; simp [stepN]
  | succ k ih =>
    intro i st
    have hs : stepN (fun _ => linStep dtime dP s) i (k + 1) st
        = stepN (fun _ => linStep dtime dP s) (i + 1) k (linStep dtime dP s st) := rfl
    rw [hs, ih (i + 1) (linStep dtime dP s st)]
    show st.askPrice + dP + k * dP = _
    push_cast
    ring

/-! ### Lengths and tick access per model -/

theorem linear_length (sd ed sp ep dtime s : ℚ) (hdt : 0 < dtime)
    (hdd : ed + 86400 - sd - dtime ≠ 0)
    (hok : volumesOk sd dtime s (Int.toNat ⌈(ed + 86400 - sd) / dtime⌉)) :
    (linearModel sd ed sp ep dtime s).map List.length
      = some ((⌈(ed + 86400 - sd) / dtime⌉).toNat) := by
  rw [linearModel_twoPhase sd ed sp ep dtime s hdt hdd hok]
  simp [twoPhase_length]

theorem linear_tickAt (sd ed sp ep dtime s : ℚ) (hdt : 0 < dtime)
    (hdd : ed + 86400 - sd - dtime ≠ 0)
    (hok : volumesOk sd dtime s (Int.toNat ⌈(ed + 86400 - sd) / dtime⌉)) (k : ℕ)
    (hk : k < (⌈(ed + 86400 - sd) / dtime⌉).toNat) :
    tickAt (linearModel sd ed sp ep dtime s) k
      = some (stepN
          (fun _ => linStep dtime (dtime / (ed + 86400 - sd - dtime) * (ep - sp)) s)
          0 k (startState sd sp s)) := by
  rw [linearModel_twoPhase sd ed sp ep dtime s hdt hdd hok]
  simp only [tickAt, Option.some_bind]
  exact twoPhase_getElem_lt _ _ _ _ _ _ hk

theorem zigzag_length (sd ed sp ep dtime s vol : ℚ)
    (hc : ⌈(ed + 86400 - sd) / dtime⌉ ≠ 0) (hb1 : pyTrunc (vol * 50) ≠ 1)
    (hok : volumesOk sd dtime s
      ((⌈(ed + 86400 - sd) / dtime⌉ - pyTrunc (vol * 50)).toNat
        + (pyTrunc (vol * 50)).toNat)) :
    (zigzagModel sd ed sp ep dtime s vol).map List.length
      = some ((⌈(ed + 86400 - sd) / dtime⌉ - pyTrunc (vol * 50)).toNat
          + (pyTrunc (vol * 50)).toNat) := by
  obtain ⟨lift, lift2, heq⟩ := zigzagModel_twoPhase sd ed sp ep dtime s vol hc hb1 hok
  rw [heq]
  simp [twoPhase_length]

theorem wave_length (sd ed sp ep dtime s vol : ℚ) (sinF : ℚ → ℚ) (piV : ℚ)
    (h1 : ⌈(ed + 86400 - sd) / dtime⌉ ≠ 1)
    (hok : volumesOk sd dtime s ((⌈(ed + 86400 - sd) / dtime⌉).toNat)) :
    (waveModel sd ed sp ep dtime s vol sinF piV).map List.length
      = some ((⌈(ed + 86400 - sd) / dtime⌉).toNat) := by
  rw [waveModel_twoPhase sd ed sp ep dtime s vol sinF piV h1 hok]
  simp [twoPhase_length]

theorem curve_length (sd ed sp ep dtime s vol : ℚ) (expF : ℚ → ℚ)
    (hvol : vol ≠ 0)
    (hden : ¬ (1 ≤ ⌈(ed + 86400 - sd) / dtime⌉ ∧
      1 - expF (((⌈(ed + 86400 - sd) / dtime⌉ : ℚ) - 1)
        / ((⌈(ed + 86400 - sd) / dtime⌉ : ℚ) / vol)) = 0))
    (hok : volumesOk sd dtime s ((⌈(ed + 86400 - sd) / dtime⌉).toNat)) :
    (curveModel sd ed sp ep dtime s vol expF).map List.length
      = some ((⌈(ed + 86400 - sd) / dtime⌉).toNat) := by
  rw [curveModel_twoPhase sd ed sp ep dtime s vol expF hvol hden hok]
  simp [twoPhase_length]

theorem random_length (sd ed sp ep dtime s vol : ℚ) (noise : ℕ → ℚ)
    (hdd : ed + 86400 - sd - dtime ≠ 0)
    (hn : (⌈(ed + 86400 - sd) / dtime⌉).toNat ≠ 0)
    (hok : volumesOk sd dtime s ((⌈(ed + 86400 - sd) / dtime⌉).toNat)) :
    (randomModel sd ed sp ep dtime s vol noise).map List.length
      = some ((⌈(ed + 86400 - sd) / dtime⌉).toNat) := by
  rw [randomModel_twoPhase sd ed sp ep dtime s vol noise hdd hn hok]
  simp [setLastPrices_length, twoPhase_length]

/-! ### The two synthesizer crash modes at the model level -/

/-- At spread `= 1000` points the linear model's very first synthesizer call
faults: the run crashes and produces nothing. -/
theorem linearModel_spread1000_none (sd ed den : ℤ) (sp ep : ℚ)
    (h1 : sd ≤ ed) (h6 : 0 < den) :
    linearModel ((sd : ℚ) * 86400) ((ed : ℚ) * 86400) sp ep
      ((60 : ℚ) / (den : ℚ)) (((1000 : ℤ) : ℚ) / 100000) = none := by
  have hdd := ne_of_gt (randomDenom_pos sd ed den h1 h6)
  have hn : Int.toNat ⌈((ed : ℚ) * 86400 + 86400 - (sd : ℚ) * 86400)
      / ((60 : ℚ) / (den : ℚ))⌉ ≠ 0 := by
    rw [ceil_model_count]
    have := claimedCount_ge sd ed den h1 h6
    omega
  simp only [linearModel]
  rw [if_neg hdd, if_neg (not_volumesOk_spread1000 _ _ _ hn)]

/-- At spread `= 1000` points the random model's very first synthesizer call
faults: the run crashes and produces nothing. -/
theorem randomModel_spread1000_none (sd ed den : ℤ) (sp ep vol : ℚ)
    (noise : ℕ → ℚ) (h1 : sd ≤ ed) (h6 : 0 < den) :
    randomModel ((sd : ℚ) * 86400) ((ed : ℚ) * 86400) sp ep
      ((60 : ℚ) / (den : ℚ)) (((1000 : ℤ) : ℚ) / 100000) vol noise = none := by
  have hdd := ne_of_gt (randomDenom_pos sd ed den h1 h6)
  have hn : (⌈((ed : ℚ) * 86400 + 86400 - (sd : ℚ) * 86400)
      / ((60 : ℚ) / (den : ℚ))⌉).toNat ≠ 0 := by
    rw [ceil_model_count]
    have := claimedCount_ge sd ed den h1 h6
    omega
  simp only [randomModel]
  rw [if_neg hdd, if_neg (not_volumesOk_spread1000 _ _ _ hn)]

/-- Run over the single day 1969.12.31 (day `-1`) at density 1: the linear
model's synthesizer call at timestamp `-60` faults, so the run crashes and
produces nothing. -/
theorem linearModel_preEpoch_none (sp ep : ℚ) (spread : ℚ) :
    linearModel (((-1 : ℤ) : ℚ) * 86400) (((-1 : ℤ) : ℚ) * 86400) sp ep
      ((60 : ℚ) / ((1 : ℤ) : ℚ)) spread = none := by
  have hdd : ((-1 : ℤ) : ℚ) * 86400 + 86400 - ((-1 : ℤ) : ℚ) * 86400
      - (60 : ℚ) / ((1 : ℤ) : ℚ) ≠ 0 :=
    ne_of_gt (randomDenom_pos (-1) (-1) 1 (by norm_num) (by norm_num))
  have hnum : Int.toNat ⌈(((-1 : ℤ) : ℚ) * 86400 + 86400 - ((-1 : ℤ) : ℚ) * 86400)
      / ((60 : ℚ) / ((1 : ℤ) : ℚ))⌉ = 1440 := by
    rw [ceil_model_count, claimedCount_eq (-1) (-1) 1 (by norm_num)]
    decide
  have hnot : ¬ volumesOk (((-1 : ℤ) : ℚ) * 86400) ((60 : ℚ) / ((1 : ℤ) : ℚ))
      spread (Int.toNat ⌈(((-1 : ℤ) : ℚ) * 86400 + 86400 - ((-1 : ℤ) : ℚ) * 86400)
        / ((60 : ℚ) / ((1 : ℤ) : ℚ))⌉) := by
    rw [hnum]
    exact not_volumesOk_preEpochDay spread 1440 (by omega)
  simp only [linearModel]
  rw [if_neg hdd, if_neg hnot]

/-! ### Claims -/

/-- Claim C9: for every input whose dates parse but with `endDate < startDate`,
the driver stops at the first validation check: it reports the error (which
prints an `[ERROR]` line on the diagnostic stream and exits with status 1)
and produces no output rows. -/
theorem claimC9_invalid_date_order (sd ed : ℤ) (sp ep : ℚ) (dg spts den : ℤ)
    (pat : Pattern) (vol : ℚ) (sinF : ℚ → ℚ) (piV : ℚ) (expF : ℚ → ℚ)
    (noise : ℕ → ℚ) (h : ed < sd) :
    mainRun sd ed sp ep dg spts den pat vol sinF piV expF noise
        = RunResult.validationError "Ending date precedes starting date!"
      ∧ rowsOf (mainRun sd ed sp ep dg spts den pat vol sinF piV expF noise)
        = none := by
  have hmain : mainRun sd ed sp ep dg spts den pat vol sinF piV expF noise
      = RunResult.validationError "Ending date precedes starting date!" := by
    simp only [mainRun]
    rw [if_pos h]
  exact ⟨hmain, by rw [hmain]; rfl⟩

/-- Witness for C9 at a concrete input (2014.01.02 before 2014.01.01). -/
theorem claimC9_witness :
    (16070 : ℤ) < 16071
      ∧ mainRun 16071 16070 2 4 5 10 1 Pattern.linear 1 zeroFun 0 zeroFun zeroNoise
        = RunResult.validationError "Ending date precedes starting date!" :=
  ⟨by decide,
    (claimC9_invalid_date_order 16071 16070 2 4 5 10 1 Pattern.linear 1
      zeroFun 0 zeroFun zeroNoise (by decide)).1⟩

/-- Claim C10: any volatility in `[0.02, 0.04)` passes validation yet makes
`backward = int(volatility * 50) = 1`, so the zigzag tail step size
`(endPrice - bidPrice) / (backward - 1)` divides by zero: the zigzag
generator raises instead of producing a tick sequence, and the run crashes
with no rows. -/
theorem claimC10_zigzag_div_by_zero (sd ed : ℤ) (sp ep : ℚ)
    (dg spts den : ℤ) (vol : ℚ) (sinF : ℚ → ℚ) (piV : ℚ) (expF : ℚ → ℚ)
    (noise : ℕ → ℚ) (hv : ValidInput sd ed sp ep dg spts den vol)
    (hlo : 1 / 50 ≤ vol) (hhi : vol < 1 / 25) :
    pyTrunc (vol * 50) = 1
      ∧ zigzagModel ((sd : ℚ) * 86400) ((ed : ℚ) * 86400) sp ep
          ((60 : ℚ) / (den : ℚ)) ((spts : ℚ) / 100000) vol = none
      ∧ mainRun sd ed sp ep dg spts den Pattern.zigzag vol sinF piV expF noise
        = RunResult.crash := by
  obtain ⟨h1, h2, h3, h4, h5, h6, h7⟩ := hv
  have hb : pyTrunc (vol * 50) = 1 := by
    rw [pyTrunc_of_nonneg (by positivity)]
    refine Int.floor_eq_iff.mpr ⟨?_, ?_⟩ <;> push_cast <;> linarith
  have hcount : claimedCount sd ed den ≠ 0 := by
    have := claimedCount_ge sd ed den h1 h6
    omega
  have hnone : zigzagModel ((sd : ℚ) * 86400) ((ed : ℚ) * 86400) sp ep
      ((60 : ℚ) / (den : ℚ)) ((spts : ℚ) / 100000) vol = none := by
    simp only [zigzagModel]
    rw [ceil_model_count, if_neg hcount, if_pos hb]
  refine ⟨hb, hnone, ?_⟩
  simp only [mainRun]
  rw [if_neg (by omega : ¬ ed < sd), if_neg (by omega : ¬ dg ≤ 0),
    if_neg (by push_neg; exact ⟨h3, h4⟩ : ¬ (sp ≤ 0 ∨ ep ≤ 0)),
    if_neg (by omega : ¬ spts < 0), if_neg (by omega : ¬ den ≤ 0),
    if_neg (by linarith : ¬ vol ≤ 0), hnone]

/-- Witness for C10: volatility `0.025` on an otherwise default-like valid
input crashes the zigzag run. -/
theorem claimC10_witness :
    (ValidInput 0 0 2 4 5 10 1 (1 / 40) ∧ 1 / 50 ≤ (1 / 40 : ℚ)
        ∧ (1 / 40 : ℚ) < 1 / 25)
      ∧ (pyTrunc ((1 / 40 : ℚ) * 50) = 1
        ∧ zigzagModel ((0 : ℚ) * 86400) ((0 : ℚ) * 86400) 2 4
            ((60 : ℚ) / ((1 : ℤ) : ℚ)) (((10 : ℤ) : ℚ) / 100000) (1 / 40) = none
        ∧ mainRun 0 0 2 4 5 10 1 Pattern.zigzag (1 / 40) zeroFun 0 zeroFun zeroNoise
          = RunResult.crash) :=
  ⟨⟨by norm_num [ValidInput], by norm_num, by norm_num⟩,
    claimC10_zigzag_div_by_zero 0 0 2 4 5 10 1 (1 / 40) zeroFun 0 zeroFun zeroNoise
      (by norm_num [ValidInput]) (by norm_num) (by norm_num)⟩

/-- Claim C1 is refuted as stated: the input (1970.01.01 to 1970.01.01,
prices 2/4, spread 1000 points) passes every CLI validation, yet the random
model's first synthesizer call divides by the zero modulus
`1e3 - spread * 1e5 = 0`: the run crashes with `ZeroDivisionError` and
returns no tick sequence at all, let alone one ending at `endPrice`. -/
theorem claimC1_counterexample :
    ValidInput 0 0 2 4 5 1000 1 1
      ∧ mainRun 0 0 2 4 5 1000 1 Pattern.random 1 zeroFun 0 zeroFun zeroNoise
        = RunResult.crash
      ∧ (rowsOf (mainRun 0 0 2 4 5 1000 1 Pattern.random 1 zeroFun 0 zeroFun
          zeroNoise)).map lastBidAsk = none := by
  have hnone := randomModel_spread1000_none 0 0 1 2 4 1 zeroNoise
    (by norm_num) (by norm_num)
  have hcrash : mainRun 0 0 2 4 5 1000 1 Pattern.random 1 zeroFun 0 zeroFun
      zeroNoise = RunResult.crash := by
    simp only [mainRun]
    rw [if_neg (by norm_num : ¬ (0 : ℤ) < 0), if_neg (by norm_num : ¬ (5 : ℤ) ≤ 0),
      if_neg (by norm_num : ¬ ((2 : ℚ) ≤ 0 ∨ (4 : ℚ) ≤ 0)),
      if_neg (by norm_num : ¬ (1000 : ℤ) < 0), if_neg (by norm_num : ¬ (1 : ℤ) ≤ 0),
      if_neg (by norm_num : ¬ (1 : ℚ) ≤ 0), hnone]
  exact ⟨by norm_num [ValidInput], hcrash, by rw [hcrash]; rfl⟩

/-- Claim C1 (amended): for every valid input whose start date is at or
after the epoch (1970.01.01) and whose spread is not exactly 1000 points —
otherwise a synthesizer call faults and the run crashes (see the
counterexample) — the random-walk model returns a non-empty tick sequence
whose last tick has bid price exactly `endPrice` and ask price exactly
`endPrice + spread`, for every noise sequence.
(`map lastBidAsk = some (some ...)` says: a list is produced, it is
non-empty, and its last tick carries exactly these two prices.) -/
theorem claimC1_amended_random_last_forced (sd ed : ℤ) (sp ep : ℚ)
    (dg spts den : ℤ) (vol : ℚ) (sinF : ℚ → ℚ) (piV : ℚ) (expF : ℚ → ℚ)
    (noise : ℕ → ℚ) (hv : ValidInput sd ed sp ep dg spts den vol)
    (hsd : 0 ≤ sd) (hs1000 : spts ≠ 1000) :
    (rowsOf (mainRun sd ed sp ep dg spts den Pattern.random vol sinF piV expF
        noise)).map lastBidAsk
      = some (some (ep, ep + (spts : ℚ) / 100000)) := by
  obtain ⟨h1, h2, h3, h4, h5, h6, h7⟩ := hv
  rw [rowsOf_mainRun_random sd ed sp ep dg spts den vol sinF piV expF noise
    ⟨h1, h2, h3, h4, h5, h6, h7⟩]
  have hdd : (ed : ℚ) * 86400 + 86400 - (sd : ℚ) * 86400 - (60 : ℚ) / (den : ℚ) ≠ 0 :=
    ne_of_gt (randomDenom_pos sd ed den h1 h6)
  have hn : (⌈((ed : ℚ) * 86400 + 86400 - (sd : ℚ) * 86400)
      / ((60 : ℚ) / (den : ℚ))⌉).toNat ≠ 0 := by
    rw [ceil_model_count]
    have := claimedCount_ge sd ed den h1 h6
    omega
  rw [randomModel_twoPhase _ _ _ _ _ _ _ _ hdd hn
    (volumesOk_of_valid sd spts den _ hsd h6 hs1000)]
  simp only [Option.map_some']
  have hne : twoPhase
      (randomStep ((60 : ℚ) / (den : ℚ))
        (((60 : ℚ) / (den : ℚ))
            / ((ed : ℚ) * 86400 + 86400 - (sd : ℚ) * 86400 - (60 : ℚ) / (den : ℚ))
          * (ep - sp)) vol ((spts : ℚ) / 100000) noise)
      (randomStep ((60 : ℚ) / (den : ℚ))
        (((60 : ℚ) / (den : ℚ))
            / ((ed : ℚ) * 86400 + 86400 - (sd : ℚ) * 86400 - (60 : ℚ) / (den : ℚ))
          * (ep - sp)) vol ((spts : ℚ) / 100000) noise)
      ((⌈((ed : ℚ) * 86400 + 86400 - (sd : ℚ) * 86400)
        / ((60 : ℚ) / (den : ℚ))⌉).toNat) 0
      (startState ((sd : ℚ) * 86400) sp ((spts : ℚ) / 100000)) ≠ [] := by
    intro h
    have hlen := congrArg List.length h
    rw [twoPhase_length] at hlen
    simp at hlen
    exact hn (by omega)
  rw [lastBidAsk_setLastPrices _ _ _ hne]

/-- Witness for the amended C1 at a concrete valid input. -/
theorem claimC1_witness :
    (ValidInput 0 0 2 4 5 10 1 1 ∧ (0 : ℤ) ≤ 0 ∧ (10 : ℤ) ≠ 1000)
      ∧ (rowsOf (mainRun 0 0 2 4 5 10 1 Pattern.random 1 zeroFun 0 zeroFun
          zeroNoise)).map lastBidAsk
        = some (some (4, 4 + ((10 : ℤ) : ℚ) / 100000)) :=
  ⟨⟨by norm_num [ValidInput], by decide, by decide⟩,
    claimC1_amended_random_last_forced 0 0 2 4 5 10 1 1 zeroFun 0 zeroFun zeroNoise
      (by norm_num [ValidInput]) (by decide) (by decide)⟩

/-- On a valid whole-day range with `deltaTime = 60 / density`, the duration
is an exact multiple of `deltaTime`, so the linear drift
`deltaTime / (duration - deltaTime) * (endPrice - startPrice)` equals
`(endPrice - startPrice) / (count - 1)` and the last emitted tick lands
exactly on the end price. -/
theorem linear_lastBidAsk (sd ed den : ℤ) (sp ep s : ℚ)
    (h1 : sd ≤ ed) (h6 : 0 < den)
    (hok : volumesOk ((sd : ℚ) * 86400) ((60 : ℚ) / (den : ℚ)) s
      (Int.toNat ⌈((ed : ℚ) * 86400 + 86400 - (sd : ℚ) * 86400)
        / ((60 : ℚ) / (den : ℚ))⌉)) :
    (linearModel ((sd : ℚ) * 86400) ((ed : ℚ) * 86400) sp ep
        ((60 : ℚ) / (den : ℚ)) s).map lastBidAsk
      = some (some (ep, ep + s)) := by
  have hdt := dtime_pos den h6
  have hge := claimedCount_ge sd ed den h1 h6
  have hdenq : ((den : ℚ)) ≠ 0 := by
    have : (0 : ℚ) < (den : ℚ) := by exact_mod_cast h6
    linarith
  rw [linearModel_twoPhase _ _ _ _ _ _ hdt
    (ne_of_gt (randomDenom_pos sd ed den h1 h6)) hok]
  simp only [Option.map_some']
  rw [lastBidAsk, List.getLast?_eq_getElem?, twoPhase_length]
  have hn : (⌈((ed : ℚ) * 86400 + 86400 - (sd : ℚ) * 86400)
      / ((60 : ℚ) / (den : ℚ))⌉).toNat = (claimedCount sd ed den).toNat := by
    rw [ceil_model_count]
  have hpos : 1 ≤ (⌈((ed : ℚ) * 86400 + 86400 - (sd : ℚ) * 86400)
      / ((60 : ℚ) / (den : ℚ))⌉).toNat := by
    rw [hn]; omega
  rw [twoPhase_getElem_lt _ _ _ _ _ _ (by omega)]
  simp only [Option.map_some']
  have hcast : (((⌈((ed : ℚ) * 86400 + 86400 - (sd : ℚ) * 86400)
      / ((60 : ℚ) / (den : ℚ))⌉).toNat + 0 - 1 : ℕ) : ℚ)
      = ((claimedCount sd ed den : ℤ) : ℚ) - 1 := by
    rw [hn]
    have h0 : ((claimedCount sd ed den).toNat : ℤ) = claimedCount sd ed den :=
      Int.toNat_of_nonneg (by omega)
    have h0q : (((claimedCount sd ed den).toNat : ℕ) : ℚ)
        = ((claimedCount sd ed den : ℤ) : ℚ) := by exact_mod_cast h0
    rw [Nat.add_zero, Nat.cast_sub (by omega), h0q]
    norm_num
  have hD : (ed : ℚ) * 86400 + 86400 - (sd : ℚ) * 86400
      = ((claimedCount sd ed den : ℤ) : ℚ) * ((60 : ℚ) / (den : ℚ)) := by
    rw [claimedCount_eq sd ed den h6]
    push_cast
    field_simp
    ring
  have hNm1 : ((claimedCount sd ed den : ℤ) : ℚ) - 1 ≠ 0 := by
    have : (1440 : ℚ) ≤ ((claimedCount sd ed den : ℤ) : ℚ) := by exact_mod_cast hge
    intro h
    linarith
  have hdtne : (60 : ℚ) / (den : ℚ) ≠ 0 := ne_of_gt hdt
  have hkey : sp + (((claimedCount sd ed den : ℤ) : ℚ) - 1)
      * ((60 : ℚ) / (den : ℚ)
          / ((ed : ℚ) * 86400 + 86400 - (sd : ℚ) * 86400 - (60 : ℚ) / (den : ℚ))
        * (ep - sp)) = ep := by
    rw [hD]
    have hfac : ((claimedCount sd ed den : ℤ) : ℚ) * ((60 : ℚ) / (den : ℚ))
        - (60 : ℚ) / (den : ℚ)
        = (((claimedCount sd ed den : ℤ) : ℚ) - 1) * ((60 : ℚ) / (den : ℚ)) := by
      ring
    rw [hfac]
    field_simp
    ring
  rw [stepN_linStep_bid, stepN_linStep_ask, hcast]
  simp only [startState]
  simp only [Option.some.injEq, Prod.mk.injEq]
  exact ⟨hkey, by linarith [hkey]⟩

/-- Claim C5 is refuted as stated: at the concrete valid input
(2014.01.01 to 2014.01.01, startPrice 2, endPrice 4, density 1, spread 10),
the last emitted tick of the linear model has bid price exactly `endPrice`
(and ask price `endPrice + spread`) even though `startPrice ≠ endPrice` —
the series does reach `endPrice` exactly. -/
theorem claimC5_counterexample :
    (2 : ℚ) ≠ 4
      ∧ (rowsOf (mainRun 16071 16071 2 4 5 10 1 Pattern.linear 1 zeroFun 0
          zeroFun zeroNoise)).map lastBidAsk
        = some (some (4, 4 + ((10 : ℤ) : ℚ) / 100000)) := by
  refine ⟨by norm_num, ?_⟩
  rw [rowsOf_mainRun_linear 16071 16071 2 4 5 10 1 1 zeroFun 0 zeroFun zeroNoise
    (by norm_num [ValidInput])]
  exact linear_lastBidAsk 16071 16071 1 2 4 (((10 : ℤ) : ℚ) / 100000)
    (by norm_num) (by norm_num)
    (volumesOk_of_valid 16071 10 1 _ (by norm_num) (by norm_num) (by norm_num))

/-- Claim C5 (amended): the linear drift denominator
`endDate + 1 day - startDate - deltaTime` equals the elapsed time of the
last emitted tick, so the per-tick delta is calibrated to reach `endPrice`
exactly at the last emitted tick: for every valid input whose start date is
at or after the epoch and whose spread is not exactly 1000 points (otherwise
a synthesizer call faults and the run crashes with no ticks), the last
emitted tick of the linear model has bid price exactly `endPrice` and ask
price `endPrice + spread` (in exact arithmetic). -/
theorem claimC5_amended_linear_last (sd ed : ℤ) (sp ep : ℚ) (dg spts den : ℤ)
    (vol : ℚ) (sinF : ℚ → ℚ) (piV : ℚ) (expF : ℚ → ℚ) (noise : ℕ → ℚ)
    (hv : ValidInput sd ed sp ep dg spts den vol)
    (hsd : 0 ≤ sd) (hs1000 : spts ≠ 1000) :
    (rowsOf (mainRun sd ed sp ep dg spts den Pattern.linear vol sinF piV expF
        noise)).map lastBidAsk
      = some (some (ep, ep + (spts : ℚ) / 100000)) := by
  obtain ⟨h1, h2, h3, h4, h5, h6, h7⟩ := hv
  rw [rowsOf_mainRun_linear sd ed sp ep dg spts den vol sinF piV expF noise
    ⟨h1, h2, h3, h4, h5, h6, h7⟩]
  exact linear_lastBidAsk sd ed den sp ep ((spts : ℚ) / 100000) h1 h6
    (volumesOk_of_valid sd spts den _ hsd h6 hs1000)

/-- Witness for the amended C5 at a concrete valid input. -/
theorem claimC5_witness :
    (ValidInput 0 0 2 4 5 10 1 1 ∧ (0 : ℤ) ≤ 0 ∧ (10 : ℤ) ≠ 1000)
      ∧ (rowsOf (mainRun 0 0 2 4 5 10 1 Pattern.linear 1 zeroFun 0 zeroFun
          zeroNoise)).map lastBidAsk
        = some (some (4, 4 + ((10 : ℤ) : ℚ) / 100000)) :=
  ⟨⟨by norm_num [ValidInput], by decide, by decide⟩,
    claimC5_amended_linear_last 0 0 2 4 5 10 1 1 zeroFun 0 zeroFun zeroNoise
      (by norm_num [ValidInput]) (by decide) (by decide)⟩

/-- Claim C2 is refuted as stated: at the concrete valid input
(one day, density 1, volatility 50) the zigzag model produces `backward =
int(50 * 50) = 2500` ticks — its tail loop `range(count - backward, count)`
has `backward` iterations even when `backward` exceeds `count` — while the
claimed tick count `ceil((endDate + 1 day - startDate) / deltaTime)` is
1440. -/
theorem claimC2_counterexample :
    (rowsOf (mainRun 0 0 2 4 5 10 1 Pattern.zigzag 50 zeroFun 0 zeroFun
        zeroNoise)).map List.length = some 2500
      ∧ (claimedCount 0 0 1).toNat = 1440
      ∧ (2500 : ℕ) ≠ 1440 := by
  have hcc : claimedCount 0 0 1 = 1440 := by
    rw [claimedCount_eq 0 0 1 (by norm_num)]
    norm_num
  have hbw : pyTrunc ((50 : ℚ) * 50) = 2500 := by
    rw [pyTrunc_of_nonneg (by norm_num)]
    rw [show ((50 : ℚ) * 50) = ((2500 : ℤ) : ℚ) by norm_num, Int.floor_intCast]
  refine ⟨?_, by rw [hcc]; decide, by decide⟩
  rw [rowsOf_mainRun_zigzag 0 0 2 4 5 10 1 50 zeroFun 0 zeroFun zeroNoise
    (by norm_num [ValidInput])]
  rw [zigzag_length _ _ _ _ _ _ _ (by rw [ceil_model_count, hcc]; norm_num)
    (by rw [hbw]; norm_num)
    (volumesOk_of_valid 0 10 1 _ (by norm_num) (by norm_num) (by norm_num))]
  rw [ceil_model_count, hcc, hbw]
  decide

/-- Claim C2 (amended): for every valid input whose start date is at or
after the epoch and whose spread is not exactly 1000 points (otherwise a
synthesizer call faults and the run crashes with no ticks), the linear, wave
and curve models produce exactly
`ceil((endDate + 1 day - startDate) / deltaTime)` ticks (for the curve model
whenever its exponential denominator is nonzero, which holds for the true
exponential); the zigzag model with `backward = int(volatility * 50) ≠ 1`
produces `(count - backward)⁺ + backward` ticks — that is `count` ticks when
`backward ≤ count`, but `backward` ticks when `backward` exceeds `count`,
because its tail loop `range(count - backward, count)` always has `backward`
iterations. -/
theorem claimC2_amended_nonrandom_length (sd ed : ℤ) (sp ep : ℚ)
    (dg spts den : ℤ) (vol : ℚ) (sinF : ℚ → ℚ) (piV : ℚ) (expF : ℚ → ℚ)
    (noise : ℕ → ℚ) (hv : ValidInput sd ed sp ep dg spts den vol)
    (hsd : 0 ≤ sd) (hs1000 : spts ≠ 1000) :
    ((rowsOf (mainRun sd ed sp ep dg spts den Pattern.linear vol sinF piV expF
        noise)).map List.length = some (claimedCount sd ed den).toNat)
    ∧ ((rowsOf (mainRun sd ed sp ep dg spts den Pattern.wave vol sinF piV expF
        noise)).map List.length = some (claimedCount sd ed den).toNat)
    ∧ (1 - expF ((((claimedCount sd ed den : ℤ) : ℚ) - 1)
          / (((claimedCount sd ed den : ℤ) : ℚ) / vol)) ≠ 0 →
        (rowsOf (mainRun sd ed sp ep dg spts den Pattern.curve vol sinF piV expF
          noise)).map List.length = some (claimedCount sd ed den).toNat)
    ∧ (pyTrunc (vol * 50) ≠ 1 →
        ((rowsOf (mainRun sd ed sp ep dg spts den Pattern.zigzag vol sinF piV
            expF noise)).map List.length
          = some ((claimedCount sd ed den - pyTrunc (vol * 50)).toNat
              + (pyTrunc (vol * 50)).toNat))
        ∧ (pyTrunc (vol * 50) ≤ claimedCount sd ed den →
            (rowsOf (mainRun sd ed sp ep dg spts den Pattern.zigzag vol sinF piV
              expF noise)).map List.length = some (claimedCount sd ed den).toNat)
        ∧ (claimedCount sd ed den ≤ pyTrunc (vol * 50) →
            (rowsOf (mainRun sd ed sp ep dg spts den Pattern.zigzag vol sinF piV
              expF noise)).map List.length
              = some (pyTrunc (vol * 50)).toNat)) := by
  obtain ⟨h1, h2, h3, h4, h5, h6, h7⟩ := hv
  have hv' : ValidInput sd ed sp ep dg spts den vol := ⟨h1, h2, h3, h4, h5, h6, h7⟩
  have hdt := dtime_pos den h6
  have hge := claimedCount_ge sd ed den h1 h6
  refine ⟨?_, ?_, ?_, ?_⟩
  · rw [rowsOf_mainRun_linear sd ed sp ep dg spts den vol sinF piV expF noise hv',
      linear_length _ _ _ _ _ _ hdt
        (ne_of_gt (randomDenom_pos sd ed den h1 h6))
        (volumesOk_of_valid sd spts den _ hsd h6 hs1000),
      ceil_model_count]
  · rw [rowsOf_mainRun_wave sd ed sp ep dg spts den vol sinF piV expF noise hv',
      wave_length _ _ _ _ _ _ _ _ _ (by rw [ceil_model_count]; omega)
        (volumesOk_of_valid sd spts den _ hsd h6 hs1000),
      ceil_model_count]
  · intro hexp
    have hden : ¬ (1 ≤ ⌈((ed : ℚ) * 86400 + 86400 - (sd : ℚ) * 86400)
        / ((60 : ℚ) / (den : ℚ))⌉ ∧
        1 - expF (((⌈((ed : ℚ) * 86400 + 86400 - (sd : ℚ) * 86400)
              / ((60 : ℚ) / (den : ℚ))⌉ : ℚ) - 1)
          / ((⌈((ed : ℚ) * 86400 + 86400 - (sd : ℚ) * 86400)
              / ((60 : ℚ) / (den : ℚ))⌉ : ℚ) / vol)) = 0) := by
      rw [ceil_model_count]
      rintro ⟨_, hB⟩
      exact hexp hB
    rw [rowsOf_mainRun_curve sd ed sp ep dg spts den vol sinF piV expF noise hv',
      curve_length _ _ _ _ _ _ _ _ (ne_of_gt h7) hden
        (volumesOk_of_valid sd spts den _ hsd h6 hs1000),
      ceil_model_count]
  · intro hb1
    have hbn := backward_nonneg vol h7
    have hGen : (rowsOf (mainRun sd ed sp ep dg spts den Pattern.zigzag vol sinF
        piV expF noise)).map List.length
        = some ((claimedCount sd ed den - pyTrunc (vol * 50)).toNat
            + (pyTrunc (vol * 50)).toNat) := by
      rw [rowsOf_mainRun_zigzag sd ed sp ep dg spts den vol sinF piV expF noise hv',
        zigzag_length _ _ _ _ _ _ _ (by rw [ceil_model_count]; omega) hb1
          (volumesOk_of_valid sd spts den _ hsd h6 hs1000),
        ceil_model_count]
    refine ⟨hGen, ?_, ?_⟩
    · intro hble
      rw [hGen]
      simp only [Option.some.injEq]
      omega
    · intro hble
      rw [hGen]
      simp only [Option.some.injEq]
      omega

/-- Witness for the amended C2 at a concrete valid input (linear part). -/
theorem claimC2_witness :
    (ValidInput 0 0 2 4 5 10 1 1 ∧ (0 : ℤ) ≤ 0 ∧ (10 : ℤ) ≠ 1000)
      ∧ (rowsOf (mainRun 0 0 2 4 5 10 1 Pattern.linear 1 zeroFun 0 zeroFun
          zeroNoise)).map List.length = some (claimedCount 0 0 1).toNat :=
  ⟨⟨by norm_num [ValidInput], by decide, by decide⟩,
    (claimC2_amended_nonrandom_length 0 0 2 4 5 10 1 1 zeroFun 0 zeroFun
      zeroNoise (by norm_num [ValidInput]) (by decide) (by decide)).1⟩

/-- Claim C3 is refuted as stated: the run
(startDate 2014.01.01, endDate 2014.01.02, prices 2.0/2.0, density 1,
pattern none, spread 10) produces 2880 ticks — the range spans two whole
days (both endpoint dates inclusive) — not 1440. -/
theorem claimC3_counterexample :
    (rowsOf (mainRun 16071 16072 2 2 5 10 1 Pattern.linear 1 zeroFun 0 zeroFun
        zeroNoise)).map List.length = some 2880
      ∧ (2880 : ℕ) ≠ 1440 := by
  refine ⟨?_, by decide⟩
  rw [rowsOf_mainRun_linear 16071 16072 2 2 5 10 1 1 zeroFun 0 zeroFun zeroNoise
    (by norm_num [ValidInput])]
  rw [linear_length _ _ _ _ _ _ (dtime_pos 1 (by norm_num))
      (ne_of_gt (randomDenom_pos 16071 16072 1 (by norm_num) (by norm_num)))
      (volumesOk_of_valid 16071 10 1 _ (by norm_num) (by norm_num) (by norm_num)),
    ceil_model_count, claimedCount_eq 16071 16072 1 (by norm_num)]
  decide

/-- Claim C3 (amended): the run (startDate 2014.01.01, endDate 2014.01.02,
prices 2.0/2.0, density 1, pattern none, spread 10) produces exactly 2880
ticks, tick `k` having timestamp `startDate + k * 60` seconds (so the ticks
are spaced 60 seconds apart), bid price exactly 2.0 and ask price exactly
2.0001. -/
theorem claimC3_amended_example_run :
    ((rowsOf (mainRun 16071 16072 2 2 5 10 1 Pattern.linear 1 zeroFun 0 zeroFun
        zeroNoise)).map List.length = some 2880)
    ∧ (∀ k : ℕ, k < 2880 →
        timestampAt (rowsOf (mainRun 16071 16072 2 2 5 10 1 Pattern.linear 1
            zeroFun 0 zeroFun zeroNoise)) k
          = some ((16071 : ℚ) * 86400 + (k : ℚ) * 60)
        ∧ (tickAt (rowsOf (mainRun 16071 16072 2 2 5 10 1 Pattern.linear 1
            zeroFun 0 zeroFun zeroNoise)) k).map Tick.bidPrice = some 2
        ∧ (tickAt (rowsOf (mainRun 16071 16072 2 2 5 10 1 Pattern.linear 1
            zeroFun 0 zeroFun zeroNoise)) k).map Tick.askPrice
          = some (2 + ((10 : ℤ) : ℚ) / 100000)) := by
  have hv : ValidInput 16071 16072 2 2 5 10 1 1 := by norm_num [ValidInput]
  have hdt := dtime_pos 1 (by norm_num)
  have hdd := ne_of_gt (randomDenom_pos 16071 16072 1 (by norm_num) (by norm_num))
  have hok := volumesOk_of_valid 16071 10 1
    (Int.toNat ⌈(((16072 : ℤ) : ℚ) * 86400 + 86400 - ((16071 : ℤ) : ℚ) * 86400)
      / ((60 : ℚ) / ((1 : ℤ) : ℚ))⌉) (by norm_num) (by norm_num) (by norm_num)
  have hrows := rowsOf_mainRun_linear 16071 16072 2 2 5 10 1 1 zeroFun 0 zeroFun
    zeroNoise hv
  have hn : (⌈(((16072 : ℤ) : ℚ) * 86400 + 86400 - ((16071 : ℤ) : ℚ) * 86400)
      / ((60 : ℚ) / ((1 : ℤ) : ℚ))⌉).toNat = 2880 := by
    rw [ceil_model_count, claimedCount_eq 16071 16072 1 (by norm_num)]
    decide
  constructor
  · rw [hrows, linear_length _ _ _ _ _ _ hdt hdd hok, hn]
  · intro k hk
    have htick := linear_tickAt (((16071 : ℤ) : ℚ) * 86400)
      (((16072 : ℤ) : ℚ) * 86400) 2 2 ((60 : ℚ) / ((1 : ℤ) : ℚ))
      (((10 : ℤ) : ℚ) / 100000) hdt hdd hok k (by rw [hn]; exact hk)
    refine ⟨?_, ?_, ?_⟩
    · rw [timestampAt, hrows, htick]
      simp only [Option.map_some']
      rw [stepN_timestamp _ ((60 : ℚ) / ((1 : ℤ) : ℚ)) (fun _ _ => rfl)]
      simp only [startState]
      norm_num
    · rw [hrows, htick]
      simp only [Option.map_some']
      rw [stepN_linStep_bid]
      simp only [startState]
      norm_num
    · rw [hrows, htick]
      simp only [Option.map_some']
      rw [stepN_linStep_ask]
      simp only [startState]
      norm_num

/-- Witness for the amended C3 at tick 0. -/
theorem claimC3_witness :
    (0 : ℕ) < 2880
      ∧ (timestampAt (rowsOf (mainRun 16071 16072 2 2 5 10 1 Pattern.linear 1
            zeroFun 0 zeroFun zeroNoise)) 0
          = some ((16071 : ℚ) * 86400 + ((0 : ℕ) : ℚ) * 60)
        ∧ (tickAt (rowsOf (mainRun 16071 16072 2 2 5 10 1 Pattern.linear 1
            zeroFun 0 zeroFun zeroNoise)) 0).map Tick.bidPrice = some 2
        ∧ (tickAt (rowsOf (mainRun 16071 16072 2 2 5 10 1 Pattern.linear 1
            zeroFun 0 zeroFun zeroNoise)) 0).map Tick.askPrice
          = some (2 + ((10 : ℤ) : ℚ) / 100000)) :=
  ⟨by decide, claimC3_amended_example_run.2 0 (by decide)⟩

/-! ### Per-tick properties of each model -/

theorem linear_spreadAt (sd ed sp ep dtime s : ℚ) (hdt : 0 < dtime)
    (hdd : ed + 86400 - sd - dtime ≠ 0)
    (hok : volumesOk sd dtime s (Int.toNat ⌈(ed + 86400 - sd) / dtime⌉)) (k : ℕ)
    (hk : k < (⌈(ed + 86400 - sd) / dtime⌉).toNat) :
    (tickAt (linearModel sd ed sp ep dtime s) k).map spreadOf = some s := by
  rw [linear_tickAt sd ed sp ep dtime s hdt hdd hok k hk]
  simp only [Option.map_some']
  rw [stepN_preserveInvariant _ spreadOf
    (fun _ st => linStep_spread dtime (dtime / (ed + 86400 - sd - dtime) * (ep - sp)) s st),
    startState_spread]

theorem zigzag_spreadAt (sd ed sp ep dtime s vol : ℚ)
    (hc : ⌈(ed + 86400 - sd) / dtime⌉ ≠ 0) (hb1 : pyTrunc (vol * 50) ≠ 1)
    (hok : volumesOk sd dtime s
      ((⌈(ed + 86400 - sd) / dtime⌉ - pyTrunc (vol * 50)).toNat
        + (pyTrunc (vol * 50)).toNat)) (k : ℕ)
    (hk : k < (⌈(ed + 86400 - sd) / dtime⌉ - pyTrunc (vol * 50)).toNat
        + (pyTrunc (vol * 50)).toNat) :
    (tickAt (zigzagModel sd ed sp ep dtime s vol) k).map spreadOf = some s := by
  obtain ⟨lift, lift2, heq⟩ :=
    zigzagModel_twoPhase sd ed sp ep dtime s vol hc hb1 hok
  rw [heq]
  simp only [tickAt, Option.some_bind]
  exact twoPhase_setInvariant _ _ spreadOf s
    (fun j st => zigzagStep_spread dtime s lift (pyTrunc (vol * 50)) j st)
    (fun j st => zigzagTailStep_spread dtime s lift2 j st)
    _ _ k _ (startState_spread sd sp s) hk

theorem wave_spreadAt (sd ed sp ep dtime s vol : ℚ) (sinF : ℚ → ℚ) (piV : ℚ)
    (h1 : ⌈(ed + 86400 - sd) / dtime⌉ ≠ 1)
    (hok : volumesOk sd dtime s ((⌈(ed + 86400 - sd) / dtime⌉).toNat)) (k : ℕ)
    (hk : k < (⌈(ed + 86400 - sd) / dtime⌉).toNat) :
    (tickAt (waveModel sd ed sp ep dtime s vol sinF piV) k).map spreadOf = some s := by
  rw [waveModel_twoPhase sd ed sp ep dtime s vol sinF piV h1 hok]
  simp only [tickAt, Option.some_bind]
  exact twoPhase_setInvariant _ _ spreadOf s
    (fun j st => waveStep_spread sp (ep - sp) vol dtime s sinF piV _ j st)
    (fun j st => waveStep_spread sp (ep - sp) vol dtime s sinF piV _ j st)
    _ _ k _ (startState_spread sd sp s) (by omega)

theorem curve_spreadAt (sd ed sp ep dtime s vol : ℚ) (expF : ℚ → ℚ)
    (hvol : vol ≠ 0)
    (hden : ¬ (1 ≤ ⌈(ed + 86400 - sd) / dtime⌉ ∧
      1 - expF (((⌈(ed + 86400 - sd) / dtime⌉ : ℚ) - 1)
        / ((⌈(ed + 86400 - sd) / dtime⌉ : ℚ) / vol)) = 0))
    (hok : volumesOk sd dtime s ((⌈(ed + 86400 - sd) / dtime⌉).toNat)) (k : ℕ)
    (hk : k < (⌈(ed + 86400 - sd) / dtime⌉).toNat) :
    (tickAt (curveModel sd ed sp ep dtime s vol expF) k).map spreadOf = some s := by
  rw [curveModel_twoPhase sd ed sp ep dtime s vol expF hvol hden hok]
  simp only [tickAt, Option.some_bind]
  exact twoPhase_setInvariant _ _ spreadOf s
    (fun j st => curveStep_spread sp (ep - sp) dtime s expF _ _ j st)
    (fun j st => curveStep_spread sp (ep - sp) dtime s expF _ _ j st)
    _ _ k _ (startState_spread sd sp s) (by omega)

theorem setLastPrices_spreadAt (p s : ℚ) (l : List Tick) (k : ℕ)
    (hk : k < l.length)
    (hs : ∀ j, j < l.length → (l[j]?).map spreadOf = some s) :
    ((setLastPrices p s l)[k]?).map spreadOf = some s := by
  rcases lt_or_ge (k + 1) l.length with h | h
  · rw [setLastPrices_getElem_lt p s l k h]
    exact hs k hk
  · have hkl : k = l.length - 1 := by omega
    have hne : l ≠ [] := by
      intro h0
      rw [h0] at hk
      simp at hk
    have hgl := lastBidAsk_setLastPrices p s l hne
    rw [lastBidAsk, List.getLast?_eq_getElem?, setLastPrices_length] at hgl
    rw [hkl]
    obtain ⟨t, ht, hpair⟩ := Option.map_eq_some'.mp hgl
    rw [ht]
    simp only [Option.map_some', spreadOf]
    have h1 : t.bidPrice = p := by
      have := congrArg Prod.fst hpair
      simpa using this
    have h2 : t.askPrice = p + s := by
      have := congrArg Prod.snd hpair
      simpa using this
    rw [h1, h2, show p + s - p = s from by ring]

theorem random_spreadAt (sd ed sp ep dtime s vol : ℚ) (noise : ℕ → ℚ)
    (hdd : ed + 86400 - sd - dtime ≠ 0)
    (hn : (⌈(ed + 86400 - sd) / dtime⌉).toNat ≠ 0)
    (hok : volumesOk sd dtime s ((⌈(ed + 86400 - sd) / dtime⌉).toNat)) (k : ℕ)
    (hk : k < (⌈(ed + 86400 - sd) / dtime⌉).toNat) :
    (tickAt (randomModel sd ed sp ep dtime s vol noise) k).map spreadOf = some s := by
  rw [randomModel_twoPhase sd ed sp ep dtime s vol noise hdd hn hok]
  simp only [tickAt, Option.some_bind]
  apply setLastPrices_spreadAt
  · rw [twoPhase_length]
    omega
  · intro j hj
    rw [twoPhase_length] at hj
    exact twoPhase_setInvariant _ _ spreadOf s
      (fun j st => randomStep_spread dtime _ vol s noise j st)
      (fun j st => randomStep_spread dtime _ vol s noise j st)
      _ _ j _ (startState_spread sd sp s) hj

theorem linear_timestampAt (sd ed sp ep dtime s : ℚ) (hdt : 0 < dtime)
    (hdd : ed + 86400 - sd - dtime ≠ 0)
    (hok : volumesOk sd dtime s (Int.toNat ⌈(ed + 86400 - sd) / dtime⌉)) (k : ℕ)
    (hk : k < (⌈(ed + 86400 - sd) / dtime⌉).toNat) :
    timestampAt (linearModel sd ed sp ep dtime s) k = some (sd + k * dtime) := by
  rw [timestampAt, linear_tickAt sd ed sp ep dtime s hdt hdd hok k hk]
  simp only [Option.map_some']
  rw [stepN_timestamp _ dtime (fun _ _ => rfl)]
  simp [startState]

theorem zigzag_timestampAt (sd ed sp ep dtime s vol : ℚ)
    (hc : ⌈(ed + 86400 - sd) / dtime⌉ ≠ 0) (hb1 : pyTrunc (vol * 50) ≠ 1)
    (hok : volumesOk sd dtime s
      ((⌈(ed + 86400 - sd) / dtime⌉ - pyTrunc (vol * 50)).toNat
        + (pyTrunc (vol * 50)).toNat)) (k : ℕ)
    (hk : k < (⌈(ed + 86400 - sd) / dtime⌉ - pyTrunc (vol * 50)).toNat
        + (pyTrunc (vol * 50)).toNat) :
    timestampAt (zigzagModel sd ed sp ep dtime s vol) k = some (sd + k * dtime) := by
  obtain ⟨lift, lift2, heq⟩ :=
    zigzagModel_twoPhase sd ed sp ep dtime s vol hc hb1 hok
  rw [timestampAt, heq]
  simp only [tickAt, Option.some_bind]
  rw [twoPhase_timestamp _ _ dtime (fun _ _ => rfl) (fun _ _ => rfl) _ _ k _ hk]
  simp [startState]

theorem wave_timestampAt (sd ed sp ep dtime s vol : ℚ) (sinF : ℚ → ℚ) (piV : ℚ)
    (h1 : ⌈(ed + 86400 - sd) / dtime⌉ ≠ 1)
    (hok : volumesOk sd dtime s ((⌈(ed + 86400 - sd) / dtime⌉).toNat)) (k : ℕ)
    (hk : k < (⌈(ed + 86400 - sd) / dtime⌉).toNat) :
    timestampAt (waveModel sd ed sp ep dtime s vol sinF piV) k
      = some (sd + k * dtime) := by
  rw [timestampAt, waveModel_twoPhase sd ed sp ep dtime s vol sinF piV h1 hok]
  simp only [tickAt, Option.some_bind]
  rw [twoPhase_timestamp _ _ dtime (fun _ _ => rfl) (fun _ _ => rfl) _ _ k _ (by omega)]
  simp [startState]

theorem curve_timestampAt (sd ed sp ep dtime s vol : ℚ) (expF : ℚ → ℚ)
    (hvol : vol ≠ 0)
    (hden : ¬ (1 ≤ ⌈(ed + 86400 - sd) / dtime⌉ ∧
      1 - expF (((⌈(ed + 86400 - sd) / dtime⌉ : ℚ) - 1)
        / ((⌈(ed + 86400 - sd) / dtime⌉ : ℚ) / vol)) = 0))
    (hok : volumesOk sd dtime s ((⌈(ed + 86400 - sd) / dtime⌉).toNat)) (k : ℕ)
    (hk : k < (⌈(ed + 86400 - sd) / dtime⌉).toNat) :
    timestampAt (curveModel sd ed sp ep dtime s vol expF) k
      = some (sd + k * dtime) := by
  rw [timestampAt, curveModel_twoPhase sd ed sp ep dtime s vol expF hvol hden hok]
  simp only [tickAt, Option.some_bind]
  rw [twoPhase_timestamp _ _ dtime (fun _ _ => rfl) (fun _ _ => rfl) _ _ k _ (by omega)]
  simp [startState]

theorem random_timestampAt (sd ed sp ep dtime s vol : ℚ) (noise : ℕ → ℚ)
    (hdd : ed + 86400 - sd - dtime ≠ 0)
    (hn : (⌈(ed + 86400 - sd) / dtime⌉).toNat ≠ 0)
    (hok : volumesOk sd dtime s ((⌈(ed + 86400 - sd) / dtime⌉).toNat)) (k : ℕ)
    (hk : k < (⌈(ed + 86400 - sd) / dtime⌉).toNat) :
    timestampAt (randomModel sd ed sp ep dtime s vol noise) k
      = some (sd + k * dtime) := by
  rw [timestampAt, randomModel_twoPhase sd ed sp ep dtime s vol noise hdd hn hok]
  simp only [tickAt, Option.some_bind]
  rw [setLastPrices_proj ep s Tick.timestamp (fun _ => rfl)]
  rw [twoPhase_timestamp _ _ dtime (fun _ _ => rfl) (fun _ _ => rfl) _ _ k _ (by omega)]
  simp [startState]

/-- From the per-tick timestamp formula: consecutive ticks are spaced by
exactly `dtime`. -/
theorem spacing_of_formula (o : Option (List Tick)) (base dtime : ℚ) (n : ℕ)
    (hF : ∀ k, k < n → timestampAt o k = some (base + k * dtime)) :
    ∀ k, k + 1 < n →
      (timestampAt o (k + 1)).getD 0 = (timestampAt o k).getD 0 + dtime := by
  intro k hk
  rw [hF (k + 1) hk, hF k (by omega)]
  simp only [Option.getD_some]
  push_cast
  ring

/-- From the per-tick timestamp formula with a positive step: timestamps are
strictly increasing. -/
theorem mono_of_formula (o : Option (List Tick)) (base dtime : ℚ)
    (hdt : 0 < dtime) (n : ℕ)
    (hF : ∀ k, k < n → timestampAt o k = some (base + k * dtime)) :
    ∀ k j, k < j → j < n →
      (timestampAt o k).getD 0 < (timestampAt o j).getD 0 := by
  intro k j hkj hj
  rw [hF k (by omega), hF j hj]
  simp only [Option.getD_some]
  have hq : (k : ℚ) < (j : ℚ) := by exact_mod_cast hkj
  nlinarith

theorem linear_tick0 (sd ed sp ep dtime s : ℚ) (hdt : 0 < dtime)
    (hdd : ed + 86400 - sd - dtime ≠ 0)
    (hok : volumesOk sd dtime s (Int.toNat ⌈(ed + 86400 - sd) / dtime⌉))
    (h0 : 0 < (⌈(ed + 86400 - sd) / dtime⌉).toNat) :
    tickAt (linearModel sd ed sp ep dtime s) 0 = some (startState sd sp s) := by
  rw [linear_tickAt sd ed sp ep dtime s hdt hdd hok 0 h0]
  rfl

theorem zigzag_tick0 (sd ed sp ep dtime s vol : ℚ)
    (hc : ⌈(ed + 86400 - sd) / dtime⌉ ≠ 0) (hb1 : pyTrunc (vol * 50) ≠ 1)
    (hok : volumesOk sd dtime s
      ((⌈(ed + 86400 - sd) / dtime⌉ - pyTrunc (vol * 50)).toNat
        + (pyTrunc (vol * 50)).toNat))
    (h0 : 0 < (⌈(ed + 86400 - sd) / dtime⌉ - pyTrunc (vol * 50)).toNat
        + (pyTrunc (vol * 50)).toNat) :
    tickAt (zigzagModel sd ed sp ep dtime s vol) 0 = some (startState sd sp s) := by
  obtain ⟨lift, lift2, heq⟩ :=
    zigzagModel_twoPhase sd ed sp ep dtime s vol hc hb1 hok
  rw [heq]
  simp only [tickAt, Option.some_bind]
  exact twoPhase_getElem_zero _ _ _ _ _ h0

theorem wave_tick0 (sd ed sp ep dtime s vol : ℚ) (sinF : ℚ → ℚ) (piV : ℚ)
    (h1 : ⌈(ed + 86400 - sd) / dtime⌉ ≠ 1)
    (hok : volumesOk sd dtime s ((⌈(ed + 86400 - sd) / dtime⌉).toNat))
    (h0 : 0 < (⌈(ed + 86400 - sd) / dtime⌉).toNat) :
    tickAt (waveModel sd ed sp ep dtime s vol sinF piV) 0
      = some (startState sd sp s) := by
  rw [waveModel_twoPhase sd ed sp ep dtime s vol sinF piV h1 hok]
  simp only [tickAt, Option.some_bind]
  exact twoPhase_getElem_zero _ _ _ _ _ (by omega)

theorem curve_tick0 (sd ed sp ep dtime s vol : ℚ) (expF : ℚ → ℚ)
    (hvol : vol ≠ 0)
    (hden : ¬ (1 ≤ ⌈(ed + 86400 - sd) / dtime⌉ ∧
      1 - expF (((⌈(ed + 86400 - sd) / dtime⌉ : ℚ) - 1)
        / ((⌈(ed + 86400 - sd) / dtime⌉ : ℚ) / vol)) = 0))
    (hok : volumesOk sd dtime s ((⌈(ed + 86400 - sd) / dtime⌉).toNat))
    (h0 : 0 < (⌈(ed + 86400 - sd) / dtime⌉).toNat) :
    tickAt (curveModel sd ed sp ep dtime s vol expF) 0
      = some (startState sd sp s) := by
  rw [curveModel_twoPhase sd ed sp ep dtime s vol expF hvol hden hok]
  simp only [tickAt, Option.some_bind]
  exact twoPhase_getElem_zero _ _ _ _ _ (by omega)

theorem random_tick0 (sd ed sp ep dtime s vol : ℚ) (noise : ℕ → ℚ)
    (hdd : ed + 86400 - sd - dtime ≠ 0)
    (hok : volumesOk sd dtime s ((⌈(ed + 86400 - sd) / dtime⌉).toNat))
    (h2 : 1 < (⌈(ed + 86400 - sd) / dtime⌉).toNat) :
    tickAt (randomModel sd ed sp ep dtime s vol noise) 0
      = some (startState sd sp s) := by
  rw [randomModel_twoPhase sd ed sp ep dtime s vol noise hdd (by omega) hok]
  simp only [tickAt, Option.some_bind]
  rw [setLastPrices_getElem_lt _ _ _ 0 (by rw [twoPhase_length]; omega)]
  exact twoPhase_getElem_zero _ _ _ _ _ (by omega)

theorem linear_volumeSpreadAt (sd ed sp ep dtime s : ℚ) (hdt : 0 < dtime)
    (hdd : ed + 86400 - sd - dtime ≠ 0)
    (hok : volumesOk sd dtime s (Int.toNat ⌈(ed + 86400 - sd) / dtime⌉)) (k : ℕ)
    (hk1 : 1 ≤ k) (hk : k < (⌈(ed + 86400 - sd) / dtime⌉).toNat) :
    (tickAt (linearModel sd ed sp ep dtime s) k).map volumeSpreadOf
      = some (s * 100000) := by
  rw [linear_tickAt sd ed sp ep dtime s hdt hdd hok k hk]
  have hV := stepN_volumes
    (fun _ => linStep dtime (dtime / (ed + 86400 - sd - dtime) * (ep - sp)) s)
    dtime s (fun _ _ => rfl) (fun _ _ => ⟨rfl, rfl⟩) k 0 (startState sd sp s) hk1
  have hts : (startState sd sp s).timestamp = sd := rfl
  rw [hts] at hV
  simp only [Option.map_some', volumeSpreadOf]
  rw [hV.1, hV.2,
    volumesVal_sub _ _ (volumesOk_call sd dtime s _ hok k hk1 (by omega))]

theorem zigzag_volumeSpreadAt (sd ed sp ep dtime s vol : ℚ)
    (hc : ⌈(ed + 86400 - sd) / dtime⌉ ≠ 0) (hb1 : pyTrunc (vol * 50) ≠ 1)
    (hok : volumesOk sd dtime s
      ((⌈(ed + 86400 - sd) / dtime⌉ - pyTrunc (vol * 50)).toNat
        + (pyTrunc (vol * 50)).toNat)) (k : ℕ)
    (hk1 : 1 ≤ k)
    (hk : k < (⌈(ed + 86400 - sd) / dtime⌉ - pyTrunc (vol * 50)).toNat
        + (pyTrunc (vol * 50)).toNat) :
    (tickAt (zigzagModel sd ed sp ep dtime s vol) k).map volumeSpreadOf
      = some (s * 100000) := by
  obtain ⟨lift, lift2, heq⟩ :=
    zigzagModel_twoPhase sd ed sp ep dtime s vol hc hb1 hok
  rw [heq]
  simp only [tickAt, Option.some_bind]
  exact twoPhase_volumeSpread _ _ dtime s (fun _ _ => rfl) (fun _ _ => rfl)
    (fun _ _ => ⟨rfl, rfl⟩) (fun _ _ => ⟨rfl, rfl⟩)
    _ _ k _ hk1 hk (volumesOk_call sd dtime s _ hok k hk1 (by omega))

theorem wave_volumeSpreadAt (sd ed sp ep dtime s vol : ℚ) (sinF : ℚ → ℚ) (piV : ℚ)
    (h1 : ⌈(ed + 86400 - sd) / dtime⌉ ≠ 1)
    (hok : volumesOk sd dtime s ((⌈(ed + 86400 - sd) / dtime⌉).toNat)) (k : ℕ)
    (hk1 : 1 ≤ k) (hk : k < (⌈(ed + 86400 - sd) / dtime⌉).toNat) :
    (tickAt (waveModel sd ed sp ep dtime s vol sinF piV) k).map volumeSpreadOf
      = some (s * 100000) := by
  rw [waveModel_twoPhase sd ed sp ep dtime s vol sinF piV h1 hok]
  simp only [tickAt, Option.some_bind]
  exact twoPhase_volumeSpread _ _ dtime s (fun _ _ => rfl) (fun _ _ => rfl)
    (fun _ _ => ⟨rfl, rfl⟩) (fun _ _ => ⟨rfl, rfl⟩)
    _ _ k _ hk1 (by omega) (volumesOk_call sd dtime s _ hok k hk1 (by omega))

theorem curve_volumeSpreadAt (sd ed sp ep dtime s vol : ℚ) (expF : ℚ → ℚ)
    (hvol : vol ≠ 0)
    (hden : ¬ (1 ≤ ⌈(ed + 86400 - sd) / dtime⌉ ∧
      1 - expF (((⌈(ed + 86400 - sd) / dtime⌉ : ℚ) - 1)
        / ((⌈(ed + 86400 - sd) / dtime⌉ : ℚ) / vol)) = 0))
    (hok : volumesOk sd dtime s ((⌈(ed + 86400 - sd) / dtime⌉).toNat)) (k : ℕ)
    (hk1 : 1 ≤ k) (hk : k < (⌈(ed + 86400 - sd) / dtime⌉).toNat) :
    (tickAt (curveModel sd ed sp ep dtime s vol expF) k).map volumeSpreadOf
      = some (s * 100000) := by
  rw [curveModel_twoPhase sd ed sp ep dtime s vol expF hvol hden hok]
  simp only [tickAt, Option.some_bind]
  exact twoPhase_volumeSpread _ _ dtime s (fun _ _ => rfl) (fun _ _ => rfl)
    (fun _ _ => ⟨rfl, rfl⟩) (fun _ _ => ⟨rfl, rfl⟩)
    _ _ k _ hk1 (by omega) (volumesOk_call sd dtime s _ hok k hk1 (by omega))

theorem random_volumeSpreadAt (sd ed sp ep dtime s vol : ℚ) (noise : ℕ → ℚ)
    (hdd : ed + 86400 - sd - dtime ≠ 0)
    (hn : (⌈(ed + 86400 - sd) / dtime⌉).toNat ≠ 0)
    (hok : volumesOk sd dtime s ((⌈(ed + 86400 - sd) / dtime⌉).toNat)) (k : ℕ)
    (hk1 : 1 ≤ k) (hk : k < (⌈(ed + 86400 - sd) / dtime⌉).toNat) :
    (tickAt (randomModel sd ed sp ep dtime s vol noise) k).map volumeSpreadOf
      = some (s * 100000) := by
  rw [randomModel_twoPhase sd ed sp ep dtime s vol noise hdd hn hok]
  simp only [tickAt, Option.some_bind]
  rw [setLastPrices_proj ep s volumeSpreadOf (fun _ => rfl)]
  exact twoPhase_volumeSpread _ _ dtime s (fun _ _ => rfl) (fun _ _ => rfl)
    (fun _ _ => ⟨rfl, rfl⟩) (fun _ _ => ⟨rfl, rfl⟩)
    _ _ k _ hk1 (by omega) (volumesOk_call sd dtime s _ hok k hk1 (by omega))

theorem curve_hden_of_hexp (sd ed den : ℤ) (vol : ℚ) (expF : ℚ → ℚ)
    (hexp : 1 - expF ((((claimedCount sd ed den : ℤ) : ℚ) - 1)
      / (((claimedCount sd ed den : ℤ) : ℚ) / vol)) ≠ 0) :
    ¬ (1 ≤ ⌈((ed : ℚ) * 86400 + 86400 - (sd : ℚ) * 86400)
        / ((60 : ℚ) / (den : ℚ))⌉ ∧
      1 - expF (((⌈((ed : ℚ) * 86400 + 86400 - (sd : ℚ) * 86400)
            / ((60 : ℚ) / (den : ℚ))⌉ : ℚ) - 1)
        / ((⌈((ed : ℚ) * 86400 + 86400 - (sd : ℚ) * 86400)
            / ((60 : ℚ) / (den : ℚ))⌉ : ℚ) / vol)) = 0) := by
  rw [ceil_model_count]
  rintro ⟨_, hB⟩
  exact hexp hB

/-- Claim C4 is refuted as stated: the input (1970.01.01 to 1970.01.01,
prices 2/4, spread 1000 points) passes every CLI validation, yet the linear
model's first synthesizer call divides by the zero modulus
`1e3 - spread * 1e5 = 0`: the run crashes with `ZeroDivisionError`, so no
tick carries the claimed price spread even though the expected tick count is
positive. -/
theorem claimC4_counterexample :
    ValidInput 0 0 2 4 5 1000 1 1
      ∧ (0 : ℕ) < (claimedCount 0 0 1).toNat
      ∧ mainRun 0 0 2 4 5 1000 1 Pattern.linear 1 zeroFun 0 zeroFun zeroNoise
        = RunResult.crash
      ∧ (tickAt (rowsOf (mainRun 0 0 2 4 5 1000 1 Pattern.linear 1 zeroFun 0
          zeroFun zeroNoise)) 0).map spreadOf = none := by
  have hnone := linearModel_spread1000_none 0 0 1 2 4 (by norm_num) (by norm_num)
  have hcrash : mainRun 0 0 2 4 5 1000 1 Pattern.linear 1 zeroFun 0 zeroFun
      zeroNoise = RunResult.crash := by
    simp only [mainRun]
    rw [if_neg (by norm_num : ¬ (0 : ℤ) < 0), if_neg (by norm_num : ¬ (5 : ℤ) ≤ 0),
      if_neg (by norm_num : ¬ ((2 : ℚ) ≤ 0 ∨ (4 : ℚ) ≤ 0)),
      if_neg (by norm_num : ¬ (1000 : ℤ) < 0), if_neg (by norm_num : ¬ (1 : ℤ) ≤ 0),
      if_neg (by norm_num : ¬ (1 : ℚ) ≤ 0), hnone]
  refine ⟨by norm_num [ValidInput], ?_, hcrash, by rw [hcrash]; rfl⟩
  rw [claimedCount_eq 0 0 1 (by norm_num)]
  decide

/-- Claim C4 (amended): for every valid input whose start date is at or
after the epoch and whose spread is not exactly 1000 points (otherwise a
synthesizer call faults and the run crashes, emitting nothing), every
generated tick of every model satisfies `askPrice = bidPrice + spread`
(expressed as `askPrice - bidPrice = spread`) with the constant run spread
`spreadPoints / 1e5`; since the spread is nonnegative, `askPrice ≥ bidPrice`.
The zigzag conjunct is guarded by `backward ≠ 1` (otherwise generation
crashes and produces no ticks at all, claim C10), and the curve conjunct by
the nonvanishing of its exponential denominator (true of the real
exponential). -/
theorem claimC4_amended_ask_minus_bid_is_spread (sd ed : ℤ) (sp ep : ℚ)
    (dg spts den : ℤ) (vol : ℚ) (sinF : ℚ → ℚ) (piV : ℚ) (expF : ℚ → ℚ)
    (noise : ℕ → ℚ) (hv : ValidInput sd ed sp ep dg spts den vol)
    (hsd : 0 ≤ sd) (hs1000 : spts ≠ 1000) :
    (0 : ℚ) ≤ (spts : ℚ) / 100000
    ∧ (∀ k, k < (claimedCount sd ed den).toNat →
        (tickAt (rowsOf (mainRun sd ed sp ep dg spts den Pattern.linear vol
          sinF piV expF noise)) k).map spreadOf = some ((spts : ℚ) / 100000))
    ∧ (∀ k, k < (claimedCount sd ed den).toNat →
        (tickAt (rowsOf (mainRun sd ed sp ep dg spts den Pattern.wave vol
          sinF piV expF noise)) k).map spreadOf = some ((spts : ℚ) / 100000))
    ∧ (1 - expF ((((claimedCount sd ed den : ℤ) : ℚ) - 1)
          / (((claimedCount sd ed den : ℤ) : ℚ) / vol)) ≠ 0 →
        ∀ k, k < (claimedCount sd ed den).toNat →
        (tickAt (rowsOf (mainRun sd ed sp ep dg spts den Pattern.curve vol
          sinF piV expF noise)) k).map spreadOf = some ((spts : ℚ) / 100000))
    ∧ (pyTrunc (vol * 50) ≠ 1 →
        ∀ k, k < (claimedCount sd ed den - pyTrunc (vol * 50)).toNat
            + (pyTrunc (vol * 50)).toNat →
        (tickAt (rowsOf (mainRun sd ed sp ep dg spts den Pattern.zigzag vol
          sinF piV expF noise)) k).map spreadOf = some ((spts : ℚ) / 100000))
    ∧ (∀ k, k < (claimedCount sd ed den).toNat →
        (tickAt (rowsOf (mainRun sd ed sp ep dg spts den Pattern.random vol
          sinF piV expF noise)) k).map spreadOf = some ((spts : ℚ) / 100000)) := by
  obtain ⟨h1, h2, h3, h4, h5, h6, h7⟩ := hv
  have hv' : ValidInput sd ed sp ep dg spts den vol := ⟨h1, h2, h3, h4, h5, h6, h7⟩
  have hdt := dtime_pos den h6
  have hge := claimedCount_ge sd ed den h1 h6
  have hok := volumesOk_of_valid sd spts den
  refine ⟨div_nonneg (by exact_mod_cast h5) (by norm_num), ?_, ?_, ?_, ?_, ?_⟩
  · intro k hk
    rw [rowsOf_mainRun_linear sd ed sp ep dg spts den vol sinF piV expF noise hv']
    exact linear_spreadAt _ _ _ _ _ _ hdt
      (ne_of_gt (randomDenom_pos sd ed den h1 h6)) (hok _ hsd h6 hs1000) k hk
  · intro k hk
    rw [rowsOf_mainRun_wave sd ed sp ep dg spts den vol sinF piV expF noise hv']
    exact wave_spreadAt _ _ _ _ _ _ _ _ _ (by rw [ceil_model_count]; omega)
      (hok _ hsd h6 hs1000) k hk
  · intro hexp k hk
    rw [rowsOf_mainRun_curve sd ed sp ep dg spts den vol sinF piV expF noise hv']
    exact curve_spreadAt _ _ _ _ _ _ _ _ (ne_of_gt h7)
      (curve_hden_of_hexp sd ed den vol expF hexp) (hok _ hsd h6 hs1000) k hk
  · intro hb1 k hk
    rw [rowsOf_mainRun_zigzag sd ed sp ep dg spts den vol sinF piV expF noise hv']
    exact zigzag_spreadAt _ _ _ _ _ _ _ (by rw [ceil_model_count]; omega) hb1
      (hok _ hsd h6 hs1000) k hk
  · intro k hk
    rw [rowsOf_mainRun_random sd ed sp ep dg spts den vol sinF piV expF noise hv']
    exact random_spreadAt _ _ _ _ _ _ _ _
      (ne_of_gt (randomDenom_pos sd ed den h1 h6))
      (by rw [ceil_model_count]; omega) (hok _ hsd h6 hs1000) k hk

/-- Witness for the amended C4: the linear conjunct at tick 0 of a concrete
valid run. -/
theorem claimC4_witness :
    (ValidInput 0 0 2 4 5 10 1 1 ∧ (0 : ℤ) ≤ 0 ∧ (10 : ℤ) ≠ 1000)
      ∧ (0 : ℕ) < (claimedCount 0 0 1).toNat
      ∧ (tickAt (rowsOf (mainRun 0 0 2 4 5 10 1 Pattern.linear 1 zeroFun 0
          zeroFun zeroNoise)) 0).map spreadOf = some (((10 : ℤ) : ℚ) / 100000) :=
  ⟨⟨by norm_num [ValidInput], by decide, by decide⟩,
    by rw [claimedCount_eq 0 0 1 (by norm_num)]; decide,
    (claimC4_amended_ask_minus_bid_is_spread 0 0 2 4 5 10 1 1 zeroFun 0 zeroFun
        zeroNoise (by norm_num [ValidInput]) (by decide) (by decide)).2.1 0
      (by rw [claimedCount_eq 0 0 1 (by norm_num)]; decide)⟩

/-- Claim C8 is refuted as stated: the pre-epoch input (1969.12.31 to
1969.12.31, prices 2/4, density 1, spread 10) passes every CLI validation,
yet the linear model's synthesizer call at timestamp `-60` computes
`d = int(str(int(-60 / 60))[-3:]) + 1 = 0` and divides by zero: the run
crashes with `ZeroDivisionError` and emits no tick, so no tick carries the
claimed timestamp even though the expected tick count is positive. -/
theorem claimC8_counterexample :
    ValidInput (-1) (-1) 2 4 5 10 1 1
      ∧ (0 : ℕ) < (claimedCount (-1) (-1) 1).toNat
      ∧ mainRun (-1) (-1) 2 4 5 10 1 Pattern.linear 1 zeroFun 0 zeroFun zeroNoise
        = RunResult.crash
      ∧ timestampAt (rowsOf (mainRun (-1) (-1) 2 4 5 10 1 Pattern.linear 1
          zeroFun 0 zeroFun zeroNoise)) 0 = none := by
  have hnone := linearModel_preEpoch_none 2 4 (((10 : ℤ) : ℚ) / 100000)
  have hcrash : mainRun (-1) (-1) 2 4 5 10 1 Pattern.linear 1 zeroFun 0 zeroFun
      zeroNoise = RunResult.crash := by
    simp only [mainRun]
    rw [if_neg (by norm_num : ¬ (-1 : ℤ) < -1), if_neg (by norm_num : ¬ (5 : ℤ) ≤ 0),
      if_neg (by norm_num : ¬ ((2 : ℚ) ≤ 0 ∨ (4 : ℚ) ≤ 0)),
      if_neg (by norm_num : ¬ (10 : ℤ) < 0), if_neg (by norm_num : ¬ (1 : ℤ) ≤ 0),
      if_neg (by norm_num : ¬ (1 : ℚ) ≤ 0), hnone]
  refine ⟨by norm_num [ValidInput], ?_, hcrash, by rw [hcrash]; rfl⟩
  rw [claimedCount_eq (-1) (-1) 1 (by norm_num)]
  decide

/-- Claim C8 (amended): for every valid input whose start date is at or
after the epoch and whose spread is not exactly 1000 points (otherwise a
synthesizer call faults and the run crashes, emitting nothing, as at
pre-epoch start dates or spread 1000), every model gives tick `k` the
timestamp `startDate + k * (60 / density)` seconds; hence consecutive ticks
are spaced by exactly `60 / density` seconds and timestamps are strictly
increasing.  Guards as in C4: zigzag needs `backward ≠ 1` and curve a
nonvanishing exponential denominator, otherwise generation crashes and emits
nothing. -/
theorem claimC8_amended_timestamps (sd ed : ℤ) (sp ep : ℚ) (dg spts den : ℤ)
    (vol : ℚ) (sinF : ℚ → ℚ) (piV : ℚ) (expF : ℚ → ℚ) (noise : ℕ → ℚ)
    (hv : ValidInput sd ed sp ep dg spts den vol)
    (hsd : 0 ≤ sd) (hs1000 : spts ≠ 1000) :
    ((∀ k, k < (claimedCount sd ed den).toNat →
        timestampAt (rowsOf (mainRun sd ed sp ep dg spts den Pattern.linear vol
            sinF piV expF noise)) k
          = some ((sd : ℚ) * 86400 + k * ((60 : ℚ) / (den : ℚ))))
      ∧ (∀ k, k + 1 < (claimedCount sd ed den).toNat →
          (timestampAt (rowsOf (mainRun sd ed sp ep dg spts den Pattern.linear vol
              sinF piV expF noise)) (k + 1)).getD 0
            = (timestampAt (rowsOf (mainRun sd ed sp ep dg spts den Pattern.linear
                vol sinF piV expF noise)) k).getD 0 + (60 : ℚ) / (den : ℚ))
      ∧ (∀ k j, k < j → j < (claimedCount sd ed den).toNat →
          (timestampAt (rowsOf (mainRun sd ed sp ep dg spts den Pattern.linear vol
              sinF piV expF noise)) k).getD 0
            < (timestampAt (rowsOf (mainRun sd ed sp ep dg spts den Pattern.linear
                vol sinF piV expF noise)) j).getD 0))
    ∧ ((∀ k, k < (claimedCount sd ed den).toNat →
        timestampAt (rowsOf (mainRun sd ed sp ep dg spts den Pattern.wave vol
            sinF piV expF noise)) k
          = some ((sd : ℚ) * 86400 + k * ((60 : ℚ) / (den : ℚ))))
      ∧ (∀ k, k + 1 < (claimedCount sd ed den).toNat →
          (timestampAt (rowsOf (mainRun sd ed sp ep dg spts den Pattern.wave vol
              sinF piV expF noise)) (k + 1)).getD 0
            = (timestampAt (rowsOf (mainRun sd ed sp ep dg spts den Pattern.wave
                vol sinF piV expF noise)) k).getD 0 + (60 : ℚ) / (den : ℚ))
      ∧ (∀ k j, k < j → j < (claimedCount sd ed den).toNat →
          (timestampAt (rowsOf (mainRun sd ed sp ep dg spts den Pattern.wave vol
              sinF piV expF noise)) k).getD 0
            < (timestampAt (rowsOf (mainRun sd ed sp ep dg spts den Pattern.wave
                vol sinF piV expF noise)) j).getD 0))
    ∧ (1 - expF ((((claimedCount sd ed den : ℤ) : ℚ) - 1)
          / (((claimedCount sd ed den : ℤ) : ℚ) / vol)) ≠ 0 →
        (∀ k, k < (claimedCount sd ed den).toNat →
          timestampAt (rowsOf (mainRun sd ed sp ep dg spts den Pattern.curve vol
              sinF piV expF noise)) k
            = some ((sd : ℚ) * 86400 + k * ((60 : ℚ) / (den : ℚ))))
        ∧ (∀ k, k + 1 < (claimedCount sd ed den).toNat →
            (timestampAt (rowsOf (mainRun sd ed sp ep dg spts den Pattern.curve vol
                sinF piV expF noise)) (k + 1)).getD 0
              = (timestampAt (rowsOf (mainRun sd ed sp ep dg spts den Pattern.curve
                  vol sinF piV expF noise)) k).getD 0 + (60 : ℚ) / (den : ℚ))
        ∧ (∀ k j, k < j → j < (claimedCount sd ed den).toNat →
            (timestampAt (rowsOf (mainRun sd ed sp ep dg spts den Pattern.curve vol
                sinF piV expF noise)) k).getD 0
              < (timestampAt (rowsOf (mainRun sd ed sp ep dg spts den Pattern.curve
                  vol sinF piV expF noise)) j).getD 0))
    ∧ (pyTrunc (vol * 50) ≠ 1 →
        (∀ k, k < (claimedCount sd ed den - pyTrunc (vol * 50)).toNat
            + (pyTrunc (vol * 50)).toNat →
          timestampAt (rowsOf (mainRun sd ed sp ep dg spts den Pattern.zigzag vol
              sinF piV expF noise)) k
            = some ((sd : ℚ) * 86400 + k * ((60 : ℚ) / (den : ℚ))))
        ∧ (∀ k, k + 1 < (claimedCount sd ed den - pyTrunc (vol * 50)).toNat
            + (pyTrunc (vol * 50)).toNat →
            (timestampAt (rowsOf (mainRun sd ed sp ep dg spts den Pattern.zigzag vol
                sinF piV expF noise)) (k + 1)).getD 0
              = (timestampAt (rowsOf (mainRun sd ed sp ep dg spts den Pattern.zigzag
                  vol sinF piV expF noise)) k).getD 0 + (60 : ℚ) / (den : ℚ))
        ∧ (∀ k j, k < j → j < (claimedCount sd ed den - pyTrunc (vol * 50)).toNat
            + (pyTrunc (vol * 50)).toNat →
            (timestampAt (rowsOf (mainRun sd ed sp ep dg spts den Pattern.zigzag vol
                sinF piV expF noise)) k).getD 0
              < (timestampAt (rowsOf (mainRun sd ed sp ep dg spts den Pattern.zigzag
                  vol sinF piV expF noise)) j).getD 0))
    ∧ ((∀ k, k < (claimedCount sd ed den).toNat →
        timestampAt (rowsOf (mainRun sd ed sp ep dg spts den Pattern.random vol
            sinF piV expF noise)) k
          = some ((sd : ℚ) * 86400 + k * ((60 : ℚ) / (den : ℚ))))
      ∧ (∀ k, k + 1 < (claimedCount sd ed den).toNat →
          (timestampAt (rowsOf (mainRun sd ed sp ep dg spts den Pattern.random vol
              sinF piV expF noise)) (k + 1)).getD 0
            = (timestampAt (rowsOf (mainRun sd ed sp ep dg spts den Pattern.random
                vol sinF piV expF noise)) k).getD 0 + (60 : ℚ) / (den : ℚ))
      ∧ (∀ k j, k < j → j < (claimedCount sd ed den).toNat →
          (timestampAt (rowsOf (mainRun sd ed sp ep dg spts den Pattern.random vol
              sinF piV expF noise)) k).getD 0
            < (timestampAt (rowsOf (mainRun sd ed sp ep dg spts den Pattern.random
                vol sinF piV expF noise)) j).getD 0)) := by
  obtain ⟨h1, h2, h3, h4, h5, h6, h7⟩ := hv
  have hv' : ValidInput sd ed sp ep dg spts den vol := ⟨h1, h2, h3, h4, h5, h6, h7⟩
  have hdt := dtime_pos den h6
  have hge := claimedCount_ge sd ed den h1 h6
  have hok := volumesOk_of_valid sd spts den
  refine ⟨?_, ?_, ?_, ?_, ?_⟩
  · have hF : ∀ k, k < (claimedCount sd ed den).toNat →
        timestampAt (rowsOf (mainRun sd ed sp ep dg spts den Pattern.linear vol
            sinF piV expF noise)) k
          = some ((sd : ℚ) * 86400 + k * ((60 : ℚ) / (den : ℚ))) := by
      intro k hk
      rw [rowsOf_mainRun_linear sd ed sp ep dg spts den vol sinF piV expF noise hv']
      exact linear_timestampAt _ _ _ _ _ _ hdt
        (ne_of_gt (randomDenom_pos sd ed den h1 h6)) (hok _ hsd h6 hs1000) k hk
    exact ⟨hF, spacing_of_formula _ _ _ _ hF, mono_of_formula _ _ _ hdt _ hF⟩
  · have hF : ∀ k, k < (claimedCount sd ed den).toNat →
        timestampAt (rowsOf (mainRun sd ed sp ep dg spts den Pattern.wave vol
            sinF piV expF noise)) k
          = some ((sd : ℚ) * 86400 + k * ((60 : ℚ) / (den : ℚ))) := by
      intro k hk
      rw [rowsOf_mainRun_wave sd ed sp ep dg spts den vol sinF piV expF noise hv']
      exact wave_timestampAt _ _ _ _ _ _ _ _ _ (by rw [ceil_model_count]; omega)
        (hok _ hsd h6 hs1000) k hk
    exact ⟨hF, spacing_of_formula _ _ _ _ hF, mono_of_formula _ _ _ hdt _ hF⟩
  · intro hexp
    have hF : ∀ k, k < (claimedCount sd ed den).toNat →
        timestampAt (rowsOf (mainRun sd ed sp ep dg spts den Pattern.curve vol
            sinF piV expF noise)) k
          = some ((sd : ℚ) * 86400 + k * ((60 : ℚ) / (den : ℚ))) := by
      intro k hk
      rw [rowsOf_mainRun_curve sd ed sp ep dg spts den vol sinF piV expF noise hv']
      exact curve_timestampAt _ _ _ _ _ _ _ _ (ne_of_gt h7)
        (curve_hden_of_hexp sd ed den vol expF hexp) (hok _ hsd h6 hs1000) k hk
    exact ⟨hF, spacing_of_formula _ _ _ _ hF, mono_of_formula _ _ _ hdt _ hF⟩
  · intro hb1
    have hF : ∀ k, k < (claimedCount sd ed den - pyTrunc (vol * 50)).toNat
        + (pyTrunc (vol * 50)).toNat →
        timestampAt (rowsOf (mainRun sd ed sp ep dg spts den Pattern.zigzag vol
            sinF piV expF noise)) k
          = some ((sd : ℚ) * 86400 + k * ((60 : ℚ) / (den : ℚ))) := by
      intro k hk
      rw [rowsOf_mainRun_zigzag sd ed sp ep dg spts den vol sinF piV expF noise hv']
      exact zigzag_timestampAt _ _ _ _ _ _ _ (by rw [ceil_model_count]; omega) hb1
        (hok _ hsd h6 hs1000) k hk
    exact ⟨hF, spacing_of_formula _ _ _ _ hF, mono_of_formula _ _ _ hdt _ hF⟩
  · have hF : ∀ k, k < (claimedCount sd ed den).toNat →
        timestampAt (rowsOf (mainRun sd ed sp ep dg spts den Pattern.random vol
            sinF piV expF noise)) k
          = some ((sd : ℚ) * 86400 + k * ((60 : ℚ) / (den : ℚ))) := by
      intro k hk
      rw [rowsOf_mainRun_random sd ed sp ep dg spts den vol sinF piV expF noise hv']
      exact random_timestampAt _ _ _ _ _ _ _ _
        (ne_of_gt (randomDenom_pos sd ed den h1 h6))
        (by rw [ceil_model_count]; omega) (hok _ hsd h6 hs1000) k hk
    exact ⟨hF, spacing_of_formula _ _ _ _ hF, mono_of_formula _ _ _ hdt _ hF⟩

/-- Witness for the amended C8: the linear conjunct of a concrete valid run,
with the timestamp formula at tick 0 and the spacing and order of ticks 0
and 1. -/
theorem claimC8_witness :
    (ValidInput 0 0 2 4 5 10 1 1 ∧ (0 : ℤ) ≤ 0 ∧ (10 : ℤ) ≠ 1000)
      ∧ (0 : ℕ) + 1 < (claimedCount 0 0 1).toNat
      ∧ timestampAt (rowsOf (mainRun 0 0 2 4 5 10 1 Pattern.linear 1 zeroFun 0
          zeroFun zeroNoise)) 0
        = some ((0 : ℚ) * 86400 + (0 : ℕ) * ((60 : ℚ) / ((1 : ℤ) : ℚ)))
      ∧ (timestampAt (rowsOf (mainRun 0 0 2 4 5 10 1 Pattern.linear 1 zeroFun 0
          zeroFun zeroNoise)) (0 + 1)).getD 0
        = (timestampAt (rowsOf (mainRun 0 0 2 4 5 10 1 Pattern.linear 1 zeroFun 0
            zeroFun zeroNoise)) 0).getD 0 + (60 : ℚ) / ((1 : ℤ) : ℚ)
      ∧ (timestampAt (rowsOf (mainRun 0 0 2 4 5 10 1 Pattern.linear 1 zeroFun 0
          zeroFun zeroNoise)) 0).getD 0
        < (timestampAt (rowsOf (mainRun 0 0 2 4 5 10 1 Pattern.linear 1 zeroFun 0
            zeroFun zeroNoise)) 1).getD 0 :=
  have hb : (0 : ℕ) + 1 < (claimedCount 0 0 1).toNat := by
    rw [claimedCount_eq 0 0 1 (by norm_num)]; decide
  have hc8 := claimC8_amended_timestamps 0 0 2 4 5 10 1 1 zeroFun 0 zeroFun
    zeroNoise (by norm_num [ValidInput]) (by decide) (by decide)
  ⟨⟨by norm_num [ValidInput], by decide, by decide⟩, hb,
    hc8.1.1 0 (by omega),
    hc8.1.2.1 0 hb,
    hc8.1.2.2 0 1 (by omega) (by omega)⟩

/-- Claim C7 is refuted as stated: the first tick of a concrete valid run
has `askVolume - bidVolume = spread` (the price-scaled spread `10 / 1e5`),
not `spread * 1e5 = 10`, because the initial volumes are set as
`bidVolume = 1; askVolume = bidVolume + spread` before the first call to the
volume synthesizer. -/
theorem claimC7_counterexample :
    (tickAt (rowsOf (mainRun 0 0 2 4 5 10 1 Pattern.linear 1 zeroFun 0 zeroFun
        zeroNoise)) 0).map volumeSpreadOf = some (((10 : ℤ) : ℚ) / 100000)
      ∧ ((10 : ℤ) : ℚ) / 100000 ≠ ((10 : ℤ) : ℚ) / 100000 * 100000 := by
  refine ⟨?_, by norm_num⟩
  rw [rowsOf_mainRun_linear 0 0 2 4 5 10 1 1 zeroFun 0 zeroFun zeroNoise
    (by norm_num [ValidInput])]
  rw [linear_tick0 _ _ _ _ _ _ (dtime_pos 1 (by norm_num))
    (ne_of_gt (randomDenom_pos 0 0 1 (by norm_num) (by norm_num)))
    (volumesOk_of_valid 0 10 1 _ (by norm_num) (by norm_num) (by norm_num))
    (by rw [ceil_model_count, claimedCount_eq 0 0 1 (by norm_num)]; decide)]
  simp [startState, volumeSpreadOf]

/-- Claim C7 (amended): for every valid input whose start date is at or
after the epoch and whose spread is not exactly 1000 points (otherwise a
synthesizer call faults and the run crashes, emitting nothing), every model
gives every tick after the first `askVolume - bidVolume = spread * 1e5` (the
unscaled point value of the configured spread), while the first tick has
`bidVolume = 1` and `askVolume - bidVolume = spread` (the price-scaled
spread) — the initial volumes are set before the volume synthesizer is first
called.  Guards as in C4. -/
theorem claimC7_volume_spread (sd ed : ℤ) (sp ep : ℚ) (dg spts den : ℤ)
    (vol : ℚ) (sinF : ℚ → ℚ) (piV : ℚ) (expF : ℚ → ℚ) (noise : ℕ → ℚ)
    (hv : ValidInput sd ed sp ep dg spts den vol)
    (hsd : 0 ≤ sd) (hs1000 : spts ≠ 1000) :
    ((tickAt (rowsOf (mainRun sd ed sp ep dg spts den Pattern.linear vol sinF
          piV expF noise)) 0).map Tick.bidVolume = some 1
      ∧ (tickAt (rowsOf (mainRun sd ed sp ep dg spts den Pattern.linear vol sinF
          piV expF noise)) 0).map volumeSpreadOf = some ((spts : ℚ) / 100000)
      ∧ (∀ k, 1 ≤ k → k < (claimedCount sd ed den).toNat →
          (tickAt (rowsOf (mainRun sd ed sp ep dg spts den Pattern.linear vol sinF
            piV expF noise)) k).map volumeSpreadOf
            = some ((spts : ℚ) / 100000 * 100000)))
    ∧ ((tickAt (rowsOf (mainRun sd ed sp ep dg spts den Pattern.wave vol sinF
          piV expF noise)) 0).map Tick.bidVolume = some 1
      ∧ (tickAt (rowsOf (mainRun sd ed sp ep dg spts den Pattern.wave vol sinF
          piV expF noise)) 0).map volumeSpreadOf = some ((spts : ℚ) / 100000)
      ∧ (∀ k, 1 ≤ k → k < (claimedCount sd ed den).toNat →
          (tickAt (rowsOf (mainRun sd ed sp ep dg spts den Pattern.wave vol sinF
            piV expF noise)) k).map volumeSpreadOf
            = some ((spts : ℚ) / 100000 * 100000)))
    ∧ (1 - expF ((((claimedCount sd ed den : ℤ) : ℚ) - 1)
          / (((claimedCount sd ed den : ℤ) : ℚ) / vol)) ≠ 0 →
        (tickAt (rowsOf (mainRun sd ed sp ep dg spts den Pattern.curve vol sinF
            piV expF noise)) 0).map Tick.bidVolume = some 1
        ∧ (tickAt (rowsOf (mainRun sd ed sp ep dg spts den Pattern.curve vol sinF
            piV expF noise)) 0).map volumeSpreadOf = some ((spts : ℚ) / 100000)
        ∧ (∀ k, 1 ≤ k → k < (claimedCount sd ed den).toNat →
            (tickAt (rowsOf (mainRun sd ed sp ep dg spts den Pattern.curve vol sinF
              piV expF noise)) k).map volumeSpreadOf
              = some ((spts : ℚ) / 100000 * 100000)))
    ∧ (pyTrunc (vol * 50) ≠ 1 →
        (tickAt (rowsOf (mainRun sd ed sp ep dg spts den Pattern.zigzag vol sinF
            piV expF noise)) 0).map Tick.bidVolume = some 1
        ∧ (tickAt (rowsOf (mainRun sd ed sp ep dg spts den Pattern.zigzag vol sinF
            piV expF noise)) 0).map volumeSpreadOf = some ((spts : ℚ) / 100000)
        ∧ (∀ k, 1 ≤ k → k < (claimedCount sd ed den - pyTrunc (vol * 50)).toNat
              + (pyTrunc (vol * 50)).toNat →
            (tickAt (rowsOf (mainRun sd ed sp ep dg spts den Pattern.zigzag vol sinF
              piV expF noise)) k).map volumeSpreadOf
              = some ((spts : ℚ) / 100000 * 100000)))
    ∧ ((tickAt (rowsOf (mainRun sd ed sp ep dg spts den Pattern.random vol sinF
          piV expF noise)) 0).map Tick.bidVolume = some 1
      ∧ (tickAt (rowsOf (mainRun sd ed sp ep dg spts den Pattern.random vol sinF
          piV expF noise)) 0).map volumeSpreadOf = some ((spts : ℚ) / 100000)
      ∧ (∀ k, 1 ≤ k → k < (claimedCount sd ed den).toNat →
          (tickAt (rowsOf (mainRun sd ed sp ep dg spts den Pattern.random vol sinF
            piV expF noise)) k).map volumeSpreadOf
            = some ((spts : ℚ) / 100000 * 100000))) := by
  obtain ⟨h1, h2, h3, h4, h5, h6, h7⟩ := hv
  have hv' : ValidInput sd ed sp ep dg spts den vol := ⟨h1, h2, h3, h4, h5, h6, h7⟩
  have hdt := dtime_pos den h6
  have hge := claimedCount_ge sd ed den h1 h6
  have hbn := backward_nonneg vol h7
  have hdd := ne_of_gt (randomDenom_pos sd ed den h1 h6)
  have hok := volumesOk_of_valid sd spts den
  refine ⟨⟨?_, ?_, ?_⟩, ⟨?_, ?_, ?_⟩, ?_, ?_, ⟨?_, ?_, ?_⟩⟩
  · rw [rowsOf_mainRun_linear sd ed sp ep dg spts den vol sinF piV expF noise hv',
      linear_tick0 _ _ _ _ _ _ hdt hdd (hok _ hsd h6 hs1000)
        (by rw [ceil_model_count]; omega)]
    simp [startState]
  · rw [rowsOf_mainRun_linear sd ed sp ep dg spts den vol sinF piV expF noise hv',
      linear_tick0 _ _ _ _ _ _ hdt hdd (hok _ hsd h6 hs1000)
        (by rw [ceil_model_count]; omega)]
    simp [startState, volumeSpreadOf]
  · intro k hk1 hk
    rw [rowsOf_mainRun_linear sd ed sp ep dg spts den vol sinF piV expF noise hv']
    exact linear_volumeSpreadAt _ _ _ _ _ _ hdt hdd (hok _ hsd h6 hs1000) k hk1 hk
  · rw [rowsOf_mainRun_wave sd ed sp ep dg spts den vol sinF piV expF noise hv',
      wave_tick0 _ _ _ _ _ _ _ _ _ (by rw [ceil_model_count]; omega)
        (hok _ hsd h6 hs1000) (by rw [ceil_model_count]; omega)]
    simp [startState]
  · rw [rowsOf_mainRun_wave sd ed sp ep dg spts den vol sinF piV expF noise hv',
      wave_tick0 _ _ _ _ _ _ _ _ _ (by rw [ceil_model_count]; omega)
        (hok _ hsd h6 hs1000) (by rw [ceil_model_count]; omega)]
    simp [startState, volumeSpreadOf]
  · intro k hk1 hk
    rw [rowsOf_mainRun_wave sd ed sp ep dg spts den vol sinF piV expF noise hv']
    exact wave_volumeSpreadAt _ _ _ _ _ _ _ _ _
      (by rw [ceil_model_count]; omega) (hok _ hsd h6 hs1000) k hk1 hk
  · intro hexp
    have hden := curve_hden_of_hexp sd ed den vol expF hexp
    refine ⟨?_, ?_, ?_⟩
    · rw [rowsOf_mainRun_curve sd ed sp ep dg spts den vol sinF piV expF noise hv',
        curve_tick0 _ _ _ _ _ _ _ _ (ne_of_gt h7) hden (hok _ hsd h6 hs1000)
          (by rw [ceil_model_count]; omega)]
      simp [startState]
    · rw [rowsOf_mainRun_curve sd ed sp ep dg spts den vol sinF piV expF noise hv',
        curve_tick0 _ _ _ _ _ _ _ _ (ne_of_gt h7) hden (hok _ hsd h6 hs1000)
          (by rw [ceil_model_count]; omega)]
      simp [startState, volumeSpreadOf]
    · intro k hk1 hk
      rw [rowsOf_mainRun_curve sd ed sp ep dg spts den vol sinF piV expF noise hv']
      exact curve_volumeSpreadAt _ _ _ _ _ _ _ _ (ne_of_gt h7) hden
        (hok _ hsd h6 hs1000) k hk1 hk
  · intro hb1
    refine ⟨?_, ?_, ?_⟩
    · rw [rowsOf_mainRun_zigzag sd ed sp ep dg spts den vol sinF piV expF noise hv',
        zigzag_tick0 _ _ _ _ _ _ _ (by rw [ceil_model_count]; omega) hb1
          (hok _ hsd h6 hs1000) (by rw [ceil_model_count]; omega)]
      simp [startState]
    · rw [rowsOf_mainRun_zigzag sd ed sp ep dg spts den vol sinF piV expF noise hv',
        zigzag_tick0 _ _ _ _ _ _ _ (by rw [ceil_model_count]; omega) hb1
          (hok _ hsd h6 hs1000) (by rw [ceil_model_count]; omega)]
      simp [startState, volumeSpreadOf]
    · intro k hk1 hk
      rw [rowsOf_mainRun_zigzag sd ed sp ep dg spts den vol sinF piV expF noise hv']
      exact zigzag_volumeSpreadAt _ _ _ _ _ _ _
        (by rw [ceil_model_count]; omega) hb1 (hok _ hsd h6 hs1000) k hk1 hk
  · rw [rowsOf_mainRun_random sd ed sp ep dg spts den vol sinF piV expF noise hv',
      random_tick0 _ _ _ _ _ _ _ _ hdd (hok _ hsd h6 hs1000)
        (by rw [ceil_model_count]; omega)]
    simp [startState]
  · rw [rowsOf_mainRun_random sd ed sp ep dg spts den vol sinF piV expF noise hv',
      random_tick0 _ _ _ _ _ _ _ _ hdd (hok _ hsd h6 hs1000)
        (by rw [ceil_model_count]; omega)]
    simp [startState, volumeSpreadOf]
  · intro k hk1 hk
    rw [rowsOf_mainRun_random sd ed sp ep dg spts den vol sinF piV expF noise hv']
    exact random_volumeSpreadAt _ _ _ _ _ _ _ _ hdd
      (by rw [ceil_model_count]; omega) (hok _ hsd h6 hs1000) k hk1 hk

/-- Witness for the amended C7: the linear conjunct of a concrete valid run,
with the first tick and tick 1. -/
theorem claimC7_witness :
    (ValidInput 0 0 2 4 5 10 1 1 ∧ (0 : ℤ) ≤ 0 ∧ (10 : ℤ) ≠ 1000)
      ∧ (1 : ℕ) < (claimedCount 0 0 1).toNat
      ∧ (tickAt (rowsOf (mainRun 0 0 2 4 5 10 1 Pattern.linear 1 zeroFun 0
          zeroFun zeroNoise)) 0).map Tick.bidVolume = some 1
      ∧ (tickAt (rowsOf (mainRun 0 0 2 4 5 10 1 Pattern.linear 1 zeroFun 0
          zeroFun zeroNoise)) 0).map volumeSpreadOf
        = some (((10 : ℤ) : ℚ) / 100000)
      ∧ (tickAt (rowsOf (mainRun 0 0 2 4 5 10 1 Pattern.linear 1 zeroFun 0
          zeroFun zeroNoise)) 1).map volumeSpreadOf
        = some (((10 : ℤ) : ℚ) / 100000 * 100000) :=
  have hb : (1 : ℕ) < (claimedCount 0 0 1).toNat := by
    rw [claimedCount_eq 0 0 1 (by norm_num)]; decide
  have hc7 := claimC7_volume_spread 0 0 2 4 5 10 1 1 zeroFun 0 zeroFun zeroNoise
    (by norm_num [ValidInput]) (by decide) (by decide)
  ⟨⟨by norm_num [ValidInput], by decide, by decide⟩, hb,
    hc7.1.1, hc7.1.2.1, hc7.1.2.2 1 (by omega) hb⟩

/-- Truncating the positive float remainder equals taking the remainder of
the floor, when the modulus is a positive integer. -/
theorem pyTrunc_pyMod_int (x : ℚ) (m : ℤ) (hm : 0 < m) :
    ((pyTrunc (pyMod x (m : ℚ))) : ℚ) = pyMod ((⌊x⌋ : ℚ)) (m : ℚ) := by
  have hmq : (0 : ℚ) < (m : ℚ) := by exact_mod_cast hm
  have hnn : 0 ≤ pyMod x (m : ℚ) := pyMod_nonneg x _ hmq
  rw [pyTrunc_of_nonneg hnn]
  rw [pyMod, pyMod, floor_floor_div x m hm]
  have hsub : x - (m : ℚ) * ⌊x / (m : ℚ)⌋ = x - ((m * ⌊x / (m : ℚ)⌋ : ℤ) : ℚ) := by
    push_cast
    ring
  rw [hsub, Int.floor_sub_int]
  push_cast
  ring

/-- Claim C6 is refuted as stated: at the pre-epoch timestamp `-30` seconds
(reachable e.g. from startDate 1969.12.31 with density 2) and spread `0`,
the code truncates `-30 / 60` toward zero (`int(-0.5) = 0`, giving `d = 1`
and bid volume 970) while the claimed formula floors it
(`⌊-0.5⌋ = -1`, giving `d = 2` and bid volume 985). -/
theorem claimC6_counterexample :
    volumesFromTimestamp (-30) 0 = some (970, 970)
      ∧ claimVolumesFromTimestamp (-30) 0 = (985, 985)
      ∧ ((970 : ℚ), (970 : ℚ)) ≠ ((985 : ℚ), (985 : ℚ)) := by
  refine ⟨?_, ?_, by norm_num⟩
  · have h1 : pyTrunc ((-30 : ℚ) / 60) = 0 := by
      rw [pyTrunc, if_neg (by norm_num)]
      norm_num
    have h2 : pyMod ((-30 : ℚ) / ((1 : ℤ) : ℚ)) (1000 - 0 * 100000) = 970 := by
      rw [pyMod]
      norm_num
    simp only [volumesFromTimestamp, h1]
    rw [show lastThreeDigits 0 + 1 = (1 : ℤ) from by decide]
    rw [if_neg (by norm_num : ¬ ((1 : ℤ) = 0 ∨ (1000 : ℚ) - 0 * 100000 = 0))]
    rw [h2]
    rw [show pyTrunc (970 : ℚ) = 970 from by
      rw [pyTrunc_of_nonneg (by norm_num)]; norm_num]
    norm_num
  · have h1 : (⌊(-30 : ℚ) / 60⌋).natAbs % 1000 = 1 := by
      rw [show ⌊(-30 : ℚ) / 60⌋ = -1 from by norm_num]
      decide
    simp only [claimVolumesFromTimestamp, h1]
    have h2 : pyMod ((⌊(-30 : ℚ) / (((1 : ℕ) : ℤ) + 1 : ℤ)⌋ : ℚ)) (1000 - 0 * 100000)
        = 985 := by
      rw [show ((((1 : ℕ) : ℤ) + 1 : ℤ) : ℚ) = 2 from by push_cast; ring]
      rw [show ⌊(-30 : ℚ) / 2⌋ = -15 from by norm_num]
      rw [pyMod]
      norm_num
    rw [h2]
    norm_num

/-- Claim C6 (amended): for every timestamp with nonnegative epoch seconds
and every spread whose point value `spread * 1e5` is an integer in
`[0, 1000)` (the program always calls with such spreads), the volume
synthesizer does not fault and agrees exactly with the claimed formula: `d`
is the last three decimal digits of `⌊epochSeconds / 60⌋` plus one, the bid
volume is `⌊epochSeconds / d⌋ mod (1000 - spread * 1e5)`, and the result is
`(bidVolume, bidVolume + spread * 1e5)`. -/
theorem claimC6_amended_volume_synthesizer (ts spread : ℚ) (hts : 0 ≤ ts)
    (k : ℕ) (hk : spread * 100000 = (k : ℚ)) (hklt : k < 1000) :
    volumesFromTimestamp ts spread = some (claimVolumesFromTimestamp ts spread) := by
  have hq60 : 0 ≤ ts / 60 := by positivity
  have hfl : 0 ≤ ⌊ts / 60⌋ := Int.floor_nonneg.mpr hq60
  have hd : lastThreeDigits (pyTrunc (ts / 60))
      = ((⌊ts / 60⌋.natAbs % 1000 : ℕ) : ℤ) := by
    rw [pyTrunc_of_nonneg hq60, lastThreeDigits, if_pos hfl]
    have h1 : ((⌊ts / 60⌋.natAbs : ℕ) : ℤ) = ⌊ts / 60⌋ := Int.natAbs_of_nonneg hfl
    have h2 : ((⌊ts / 60⌋.natAbs % 1000 : ℕ) : ℤ)
        = ((⌊ts / 60⌋.natAbs : ℕ) : ℤ) % ((1000 : ℕ) : ℤ) := by exact_mod_cast rfl
    rw [h2, h1]
    norm_num
  have hmz : (0 : ℤ) < 1000 - (k : ℤ) := by omega
  have hcast : (1000 : ℚ) - spread * 100000 = ((1000 - (k : ℤ) : ℤ) : ℚ) := by
    rw [hk]
    push_cast
    ring
  have hguard : ¬ (lastThreeDigits (pyTrunc (ts / 60)) + 1 = 0
      ∨ (1000 : ℚ) - spread * 100000 = 0) := by
    push_neg
    constructor
    · rw [hd]
      have : (0 : ℤ) ≤ ((⌊ts / 60⌋.natAbs % 1000 : ℕ) : ℤ) := Int.natCast_nonneg _
      omega
    · rw [hcast]
      exact_mod_cast hmz.ne'
  simp only [volumesFromTimestamp, claimVolumesFromTimestamp]
  rw [if_neg hguard, hd, hcast]
  have hmain := pyTrunc_pyMod_int
    (ts / ((((⌊ts / 60⌋.natAbs % 1000 : ℕ) : ℤ) + 1 : ℤ) : ℚ)) (1000 - (k : ℤ)) hmz
  simp only [Option.some.injEq, Prod.mk.injEq]
  exact ⟨hmain, by rw [hmain]⟩

/-- Witness for the amended C6 at a concrete nonnegative timestamp. -/
theorem claimC6_witness :
    ((0 : ℚ) ≤ 120 ∧ (0 : ℚ) * 100000 = ((0 : ℕ) : ℚ) ∧ (0 : ℕ) < 1000)
      ∧ volumesFromTimestamp 120 0 = some (claimVolumesFromTimestamp 120 0) :=
  ⟨⟨by norm_num, by norm_num, by norm_num⟩,
    claimC6_amended_volume_synthesizer 120 0 (by norm_num) 0 (by norm_num)
      (by norm_num)⟩
